import Mathlib

/-!
Verification development for the podner repository: a four stage audio
transcription pipeline (fetch, normalize, recognize, persist) in
src/core/transcription/transcription.py together with the date helper
src/utils/date_utils.py.  The Python source is embedded shallowly below:
pure helpers become Lean functions, the stateful pipeline becomes explicit
state passing over a small filesystem model, and exceptions become Except.
-/

namespace Podner

/-! ## Characters and digits -/

/-- Code point of a character, as a natural number. -/
def cn (c : Char) : Nat := c.toNat

/-- The decimal digit character for a value below ten. -/
def dc : Nat → Char
  | 0 => '0'
  | 1 => '1'
  | 2 => '2'
  | 3 => '3'
  | 4 => '4'
  | 5 => '5'
  | 6 => '6'
  | 7 => '7'
  | 8 => '8'
  | 9 => '9'
  | _ => '0'

/-- Zero padded two digit decimal rendering, as produced by strftime with
the d, m, H, M and S directives. -/
def digits2 (n : Nat) : List Char := [dc (n / 10), dc (n % 10)]

/-- Zero padded four digit decimal rendering, as produced by strftime with
the Y directive (the CPython documentation lists the Y directive output as
zero padded to four digits: 0001, 0002, ..., 2013, 2014). -/
def digits4 (n : Nat) : List Char :=
  [dc (n / 1000), dc (n / 100 % 10), dc (n / 10 % 10), dc (n % 10)]

/-- The character is an ASCII decimal digit. -/
def isDig (c : Char) : Prop := 48 ≤ cn c ∧ cn c ≤ 57

instance (c : Char) : Decidable (isDig c) := by unfold isDig; infer_instance

/-- Numeric value of an ASCII decimal digit character. -/
def dval (c : Char) : Nat := cn c - 48

/-! ## CPython strptime, restricted to the directives used by
src/utils/date_utils.py

CPython compiles a strptime format to a regular expression:
  the Y directive becomes four digits,
  the m directive becomes the alternation 1[0-2]|0[1-9]|[1-9],
  the d directive becomes the alternation 3[01]|[12]\d|0[1-9]|[1-9],
  the B directive becomes the alternation of the English month names,
    longest name first, matched case insensitively,
  whitespace in the format matches one or more whitespace characters,
  every other character of the format matches itself.
The regex engine matches a prefix of the input, trying alternatives in
order with backtracking; strptime then demands that the match consumed the
whole input, and finally builds a datetime.date, which checks that the
numbers form a valid calendar date.  The functions below model one token
of the format as the ordered list of its possible matches; a format is run
by depth first search over those lists, so the head of the resulting list
is exactly the match the regex engine commits to. -/

/-- Ordered alternatives of the regex for the m directive:
1[0-2], then 0[1-9], then [1-9]. -/
def alts_m (cs : List Char) : List (Nat × List Char) :=
  (match cs with
   | c1 :: c2 :: r =>
     if cn c1 = 49 ∧ 48 ≤ cn c2 ∧ cn c2 ≤ 50 then [(10 + dval c2, r)] else []
   | _ => []) ++
  (match cs with
   | c1 :: c2 :: r =>
     if cn c1 = 48 ∧ 49 ≤ cn c2 ∧ cn c2 ≤ 57 then [(dval c2, r)] else []
   | _ => []) ++
  (match cs with
   | c1 :: r =>
     if 49 ≤ cn c1 ∧ cn c1 ≤ 57 then [(dval c1, r)] else []
   | _ => [])

/-- Ordered alternatives of the regex for the d directive:
3[01], then [12] followed by a digit, then 0[1-9], then [1-9]. -/
def alts_d (cs : List Char) : List (Nat × List Char) :=
  (match cs with
   | c1 :: c2 :: r =>
     if cn c1 = 51 ∧ (cn c2 = 48 ∨ cn c2 = 49) then [(30 + dval c2, r)] else []
   | _ => []) ++
  (match cs with
   | c1 :: c2 :: r =>
     if (cn c1 = 49 ∨ cn c1 = 50) ∧ 48 ≤ cn c2 ∧ cn c2 ≤ 57 then
       [(10 * dval c1 + dval c2, r)] else []
   | _ => []) ++
  (match cs with
   | c1 :: c2 :: r =>
     if cn c1 = 48 ∧ 49 ≤ cn c2 ∧ cn c2 ≤ 57 then [(dval c2, r)] else []
   | _ => []) ++
  (match cs with
   | c1 :: r =>
     if 49 ≤ cn c1 ∧ cn c1 ≤ 57 then [(dval c1, r)] else []
   | _ => [])

/-- The regex for the Y directive: exactly four digits. -/
def alts_Y (cs : List Char) : List (Nat × List Char) :=
  match cs with
  | c1 :: c2 :: c3 :: c4 :: r =>
    if isDig c1 ∧ isDig c2 ∧ isDig c3 ∧ isDig c4 then
      [(((dval c1 * 10 + dval c2) * 10 + dval c3) * 10 + dval c4, r)]
    else []
  | _ => []

/-- Lower case code point, for the case insensitive month name match. -/
def toLowerN (c : Char) : Nat :=
  if 65 ≤ cn c ∧ cn c ≤ 90 then cn c + 32 else cn c

/-- Case insensitive literal prefix match used for month names; returns the
rest of the input on success. -/
def matchCI : List Char → List Char → Option (List Char)
  | [], cs => some cs
  | _ :: _, [] => none
  | n :: ns, c :: cs =>
    if toLowerN c = toLowerN n then matchCI ns cs else none

/-- English month names with their month numbers, ordered as CPython
orders the alternation for the B directive: by decreasing length,
stable with respect to calendar order. -/
def monthNamesByLen : List (List Char × Nat) :=
  [("September".toList, 9), ("February".toList, 2), ("November".toList, 11),
   ("December".toList, 12), ("January".toList, 1), ("October".toList, 10),
   ("August".toList, 8), ("March".toList, 3), ("April".toList, 4),
   ("June".toList, 6), ("July".toList, 7), ("May".toList, 5)]

/-- Ordered alternatives of the regex for the B directive. -/
def alts_B (cs : List Char) : List (Nat × List Char) :=
  monthNamesByLen.flatMap (fun p =>
    match matchCI p.1 cs with
    | some r => [(p.2, r)]
    | none => [])

/-- ASCII whitespace, the class the regex escape s matches. -/
def isWS (c : Char) : Bool :=
  cn c = 32 || cn c = 9 || cn c = 10 || cn c = 13 || cn c = 12 || cn c = 11

/-- Drop a maximal run of whitespace. -/
def skipWS : List Char → List Char
  | [] => []
  | c :: r => if isWS c then skipWS r else c :: r

/-- One token of a compiled strptime format. -/
inductive Tok
  | y4
  | mo2
  | dy2
  | mB
  | lit (c : Char)
  | ws
deriving DecidableEq

/-- The fields strptime extracts; the defaults are year 1900, month 1,
day 1, as in CPython. -/
structure PDate where
  y : Nat
  m : Nat
  d : Nat
deriving DecidableEq

/-- Depth first search over the token alternatives, in regex preference
order: the head of the result is the match the regex engine commits to.
A whitespace token consumes a maximal whitespace run; the tokens that can
follow it here never match whitespace, so no backtracking over its length
is needed. -/
def runToks : List Tok → PDate → List Char → List (PDate × List Char)
  | [], pd, cs => [(pd, cs)]
  | .y4 :: ts, pd, cs =>
    (alts_Y cs).flatMap (fun p => runToks ts { pd with y := p.1 } p.2)
  | .mo2 :: ts, pd, cs =>
    (alts_m cs).flatMap (fun p => runToks ts { pd with m := p.1 } p.2)
  | .dy2 :: ts, pd, cs =>
    (alts_d cs).flatMap (fun p => runToks ts { pd with d := p.1 } p.2)
  | .mB :: ts, pd, cs =>
    (alts_B cs).flatMap (fun p => runToks ts { pd with m := p.1 } p.2)
  | .lit ch :: ts, pd, cs =>
    match cs with
    | c :: r => if cn c = cn ch then runToks ts pd r else []
    | [] => []
  | .ws :: ts, pd, cs =>
    match cs with
    | c :: r => if isWS c then runToks ts pd (skipWS r) else []
    | [] => []

/-- Leap year test of the Gregorian calendar, as datetime uses. -/
def isLeap (y : Nat) : Prop := y % 4 = 0 ∧ (y % 100 ≠ 0 ∨ y % 400 = 0)

instance (y : Nat) : Decidable (isLeap y) := by unfold isLeap; infer_instance

/-- Days in a month, as datetime validates them. -/
def daysInMonth (y m : Nat) : Nat :=
  if m = 2 then (if isLeap y then 29 else 28)
  else if m = 4 ∨ m = 6 ∨ m = 9 ∨ m = 11 then 30
  else 31

/-- The checks the datetime.date constructor performs
(MINYEAR is 1 and MAXYEAR is 9999). -/
def validDate (p : PDate) : Prop :=
  1 ≤ p.y ∧ p.y ≤ 9999 ∧ 1 ≤ p.m ∧ p.m ≤ 12 ∧ 1 ≤ p.d ∧ p.d ≤ daysInMonth p.y p.m

instance (p : PDate) : Decidable (validDate p) := by unfold validDate; infer_instance

/-- strptime with one format: take the committed regex match, require that
it consumed the whole input, then validate the calendar date. -/
def strptimeFmt (toks : List Tok) (s : String) : Option PDate :=
  match runToks toks ⟨1900, 1, 1⟩ s.toList with
  | [] => none
  | (pd, rest) :: _ =>
    if rest = [] then (if validDate pd then some pd else none) else none

/-- The eight formats of date_utils.py, in source order:
Y m d / d-m-Y / d.m.Y / m slash d slash Y / Y slash m slash d /
B space d comma space Y / d space B space Y / Y-m-d. -/
def dateFormats : List (List Tok) :=
  [[.y4, .mo2, .dy2],
   [.dy2, .lit '-', .mo2, .lit '-', .y4],
   [.dy2, .lit '.', .mo2, .lit '.', .y4],
   [.mo2, .lit '/', .dy2, .lit '/', .y4],
   [.y4, .lit '/', .mo2, .lit '/', .dy2],
   [.mB, .ws, .dy2, .lit ',', .ws, .y4],
   [.dy2, .ws, .mB, .ws, .y4],
   [.y4, .lit '-', .mo2, .lit '-', .dy2]]

/-- First format that parses, in source order. -/
def firstSuccess : List (List Tok) → String → Option PDate
  | [], _ => none
  | f :: fs, s =>
    match strptimeFmt f s with
    | some pd => some pd
    | none => firstSuccess fs s

/-- strftime with the ISO pattern Y-m-d. -/
def strftimeISO (p : PDate) : String :=
  ⟨digits4 p.y ++ ('-' :: (digits2 p.m ++ ('-' :: digits2 p.d)))⟩

/-- to_iso_date of src/utils/date_utils.py: try the eight formats in
order, render the first successful parse in ISO form, raise ValueError if
none matches. -/
def to_iso_date (s : String) : Except String String :=
  match firstSuccess dateFormats s with
  | some pd => .ok (strftimeISO pd)
  | none => .error ("Could not parse date: " ++ s)

/-- to_iso_date as called on a value read from the yt dlp info dict, which
may be missing: calling strptime on None raises a TypeError, which the
except ValueError inside the loop does not catch, so it propagates. -/
def to_iso_date_py : Option String → Except String String
  | none => .error "TypeError: strptime() argument 1 must be str, not NoneType"
  | some s => to_iso_date s

/-! ## Canonical renderings of the eight documented date patterns

A calendar date written in one of the eight documented patterns, with the
zero padded fields strftime itself produces and the English month names. -/

/-- English month name, capitalized, for months 1 to 12. -/
def monthName : Nat → List Char
  | 1 => "January".toList
  | 2 => "February".toList
  | 3 => "March".toList
  | 4 => "April".toList
  | 5 => "May".toList
  | 6 => "June".toList
  | 7 => "July".toList
  | 8 => "August".toList
  | 9 => "September".toList
  | 10 => "October".toList
  | 11 => "November".toList
  | 12 => "December".toList
  | _ => []

/-- The date written as YYYYMMDD. -/
def renderCompact (y m d : Nat) : String := ⟨digits4 y ++ (digits2 m ++ digits2 d)⟩

/-- The date written as DD-MM-YYYY. -/
def renderDMYdash (y m d : Nat) : String := ⟨digits2 d ++ ('-' :: (digits2 m ++ ('-' :: digits4 y)))⟩

/-- The date written as DD.MM.YYYY. -/
def renderDMYdot (y m d : Nat) : String := ⟨digits2 d ++ ('.' :: (digits2 m ++ ('.' :: digits4 y)))⟩

/-- The date written as MM/DD/YYYY. -/
def renderMDYslash (y m d : Nat) : String := ⟨digits2 m ++ ('/' :: (digits2 d ++ ('/' :: digits4 y)))⟩

/-- The date written as YYYY/MM/DD. -/
def renderYMDslash (y m d : Nat) : String := ⟨digits4 y ++ ('/' :: (digits2 m ++ ('/' :: digits2 d)))⟩

/-- The date written as Month DD, YYYY. -/
def renderBdY (y m d : Nat) : String := ⟨monthName m ++ (' ' :: (digits2 d ++ (',' :: (' ' :: digits4 y))))⟩

/-- The date written as DD Month YYYY. -/
def renderdBY (y m d : Nat) : String := ⟨digits2 d ++ (' ' :: (monthName m ++ (' ' :: digits4 y)))⟩

/-- The date written as YYYY-MM-DD. -/
def renderISO (y m d : Nat) : String := ⟨digits4 y ++ ('-' :: (digits2 m ++ ('-' :: digits2 d)))⟩

/-- All eight renderings of one calendar date, in the order the source
lists the corresponding formats. -/
def renderings (y m d : Nat) : List String :=
  [renderCompact y m d, renderDMYdash y m d, renderDMYdot y m d,
   renderMDYslash y m d, renderYMDslash y m d, renderBdY y m d,
   renderdBY y m d, renderISO y m d]

/-! ## JSON serialization, as json.dump with ensure_ascii False produces it

save_transcription_to_json serializes the record with json.dump using
ensure_ascii False and utf-8 encoding, so text is written as is except for
the two JSON metacharacters, the named control escapes, and the remaining
control characters written as a four digit hex escape. -/

/-- The hex digit character, lower case, for a value below sixteen. -/
def hexDig (k : Nat) : Char :=
  if k < 10 then dc k
  else if k = 10 then 'a'
  else if k = 11 then 'b'
  else if k = 12 then 'c'
  else if k = 13 then 'd'
  else if k = 14 then 'e'
  else 'f'

/-- Value of a hex digit character, upper or lower case. -/
def hexVal (c : Char) : Option Nat :=
  if 48 ≤ cn c ∧ cn c ≤ 57 then some (cn c - 48)
  else if 97 ≤ cn c ∧ cn c ≤ 102 then some (cn c - 87)
  else if 65 ≤ cn c ∧ cn c ≤ 70 then some (cn c - 55)
  else none

/-- The escape json.dump applies to one character when ensure_ascii is
False: quote and backslash are escaped, the named control escapes are
used for backspace, tab, newline, formfeed and carriage return, any other
control character becomes a four digit hex escape, and every other
character, ASCII or not, is written unchanged. -/
def escChar (c : Char) : List Char :=
  if cn c = 34 then ['\\', '"']
  else if cn c = 92 then ['\\', '\\']
  else if cn c = 10 then ['\\', 'n']
  else if cn c = 13 then ['\\', 'r']
  else if cn c = 9 then ['\\', 't']
  else if cn c = 8 then ['\\', 'b']
  else if cn c = 12 then ['\\', 'f']
  else if cn c < 32 then ['\\', 'u', '0', '0', hexDig (cn c / 16), hexDig (cn c % 16)]
  else [c]

/-- The JSON string body json.dump writes for a text value. -/
def jsonEscape (cs : List Char) : List Char := cs.flatMap escChar

/-- The inverse applied by json.load when reading the document back: the
named escapes, the four digit hex escape (upper or lower case hex), and
raw characters; a malformed escape is a decode error. -/
def jsonUnescape : List Char → Option (List Char)
  | [] => some []
  | '\\' :: '"' :: t => (jsonUnescape t).map (fun l => '"' :: l)
  | '\\' :: '\\' :: t => (jsonUnescape t).map (fun l => '\\' :: l)
  | '\\' :: 'n' :: t => (jsonUnescape t).map (fun l => '\n' :: l)
  | '\\' :: 'r' :: t => (jsonUnescape t).map (fun l => '\r' :: l)
  | '\\' :: 't' :: t => (jsonUnescape t).map (fun l => '\t' :: l)
  | '\\' :: 'b' :: t => (jsonUnescape t).map (fun l => '\x08' :: l)
  | '\\' :: 'f' :: t => (jsonUnescape t).map (fun l => '\x0c' :: l)
  | '\\' :: 'u' :: h1 :: h2 :: h3 :: h4 :: t =>
    (match hexVal h1, hexVal h2, hexVal h3, hexVal h4 with
     | some a, some b, some c3, some c4 =>
       (jsonUnescape t).map (fun l => Char.ofNat (((a * 16 + b) * 16 + c3) * 16 + c4) :: l)
     | _, _, _, _ => none)
  | '\\' :: _ => none
  | c :: t => (jsonUnescape t).map (fun l => c :: l)

/-- A JSON value as the record serializer produces them: a string or null. -/
inductive JVal
  | str (escaped : List Char)
  | null
deriving DecidableEq

/-- Serialize a text value. -/
def encStr (s : String) : JVal := .str (jsonEscape s.toList)

/-- Serialize an optional text value; Python None becomes JSON null. -/
def encOpt : Option String → JVal
  | none => .null
  | some s => encStr s

/-- Parse back a required text field. -/
def decStr : JVal → Option String
  | .str e => (jsonUnescape e).map (fun l => ⟨l⟩)
  | .null => none

/-- Parse back an optional text field. -/
def decOpt : JVal → Option (Option String)
  | .null => some none
  | .str e => (jsonUnescape e).map (fun l => some ⟨l⟩)

/-! ## The data shapes of transcription.py -/

/-- AudioDLData, the TypedDict the fetch stage returns. -/
structure AudioDLData where
  source_url : String
  audio_file_path : String
  audio_source_date : Option String
  duration_string : Option String
  language : Option String
  title : Option String
deriving DecidableEq

/-- TranscriptionData, the record assembled by transcribe_audio and
persisted by save_transcription_to_json. -/
structure TranscriptionData where
  source_url : String
  transcription_text : String
  transcription_date : String
  audio_source_date : Option String
  duration_string : Option String
  language : Option String
  title : Option String
deriving DecidableEq

/-- The JSON document json.dump writes for a record: the fields in the
order the source dict literal lists them. -/
def recordToDoc (r : TranscriptionData) : List (String × JVal) :=
  [("source_url", encStr r.source_url),
   ("transcription_text", encStr r.transcription_text),
   ("transcription_date", encStr r.transcription_date),
   ("audio_source_date", encOpt r.audio_source_date),
   ("duration_string", encOpt r.duration_string),
   ("language", encOpt r.language),
   ("title", encOpt r.title)]

/-- Key lookup in a JSON object, first binding wins. -/
def lookupKey (k : String) : List (String × JVal) → Option JVal
  | [] => none
  | p :: r => if p.1 == k then some p.2 else lookupKey k r

/-- Parse a JSON object back into a record, by key, ignoring field order. -/
def docToRecord (doc : List (String × JVal)) : Option TranscriptionData :=
  match (lookupKey "source_url" doc).bind decStr,
        (lookupKey "transcription_text" doc).bind decStr,
        (lookupKey "transcription_date" doc).bind decStr,
        (lookupKey "audio_source_date" doc).bind decOpt,
        (lookupKey "duration_string" doc).bind decOpt,
        (lookupKey "language" doc).bind decOpt,
        (lookupKey "title" doc).bind decOpt with
  | some su, some tt, some td, some asd, some ds, some lg, some ti =>
    some ⟨su, tt, td, asd, ds, lg, ti⟩
  | _, _, _, _, _, _, _ => none

/-! ## Filesystem model

Paths present on disk; json documents keep their parsed content so that
persistence claims can speak about what was stored. -/

/-- Content of a file: opaque media bytes or a JSON document. -/
inductive FData
  | binary
  | json (doc : List (String × JVal))
deriving DecidableEq

/-- Directories and files present on disk. -/
structure FS where
  dirs : List String
  files : List (String × FData)
deriving DecidableEq

def FS.addDir (fs : FS) (p : String) : FS := { fs with dirs := p :: fs.dirs }

def FS.removeDir (fs : FS) (p : String) : FS :=
  { fs with dirs := fs.dirs.filter (fun q => q != p) }

def FS.hasDir (fs : FS) (p : String) : Bool := fs.dirs.any (fun q => q == p)

def FS.addFile (fs : FS) (p : String) (d : FData) : FS :=
  { fs with files := (p, d) :: fs.files }

def FS.removeFile (fs : FS) (p : String) : FS :=
  { fs with files := fs.files.filter (fun q => q.1 != p) }

def FS.hasFile (fs : FS) (p : String) : Bool := fs.files.any (fun q => q.1 == p)

/-- Open for writing: truncate whatever was there and write the new
content. -/
def FS.setFile (fs : FS) (p : String) (d : FData) : FS := (fs.removeFile p).addFile p d

/-- Project a directory entry to its JSON document, if it is one. -/
def jEntry : String × FData → Option (String × List (String × JVal))
  | (p, .json doc) => some (p, doc)
  | (_, .binary) => none

/-- The JSON documents on disk with their paths; scratch media files are
not documents, so this is the durable store the persister writes to. -/
def storedRecords (fs : FS) : List (String × List (String × JVal)) :=
  fs.files.filterMap jEntry

/-- No JSON document is stored at this path; fresh scratch paths satisfy
this trivially. -/
def noJsonAt (fs : FS) (p : String) : Prop :=
  ∀ doc, (p, FData.json doc) ∉ fs.files

/-! ## Timestamps and the storage filename -/

/-- A UTC wall clock instant as datetime.now returns it; microseconds
carry the sub second part. -/
structure Timestamp where
  year : Nat
  month : Nat
  day : Nat
  hour : Nat
  minute : Nat
  second : Nat
  micro : Nat
deriving DecidableEq

/-- strftime of the pattern YmdHMS: second granularity, the microsecond
field is dropped. -/
def tsCompact (t : Timestamp) : String :=
  ⟨digits4 t.year ++ (digits2 t.month ++ (digits2 t.day ++ (digits2 t.hour ++
   (digits2 t.minute ++ digits2 t.second))))⟩

/-- The bounds datetime guarantees for a real wall clock instant. -/
def tsBounds (t : Timestamp) : Prop :=
  1 ≤ t.year ∧ t.year ≤ 9999 ∧ 1 ≤ t.month ∧ t.month ≤ 12 ∧ 1 ≤ t.day ∧ t.day ≤ 31 ∧
  t.hour ≤ 23 ∧ t.minute ≤ 59 ∧ t.second ≤ 59 ∧ t.micro ≤ 999999

instance (t : Timestamp) : Decidable (tsBounds t) := by unfold tsBounds; infer_instance

/-- The two timestamps fall in the same UTC second. -/
def sameSecond (t1 t2 : Timestamp) : Prop :=
  t1.year = t2.year ∧ t1.month = t2.month ∧ t1.day = t2.day ∧
  t1.hour = t2.hour ∧ t1.minute = t2.minute ∧ t1.second = t2.second

instance (t1 t2 : Timestamp) : Decidable (sameSecond t1 t2) := by
  unfold sameSecond; infer_instance

/-- The fixed storage directory of save_transcription_to_json. -/
def transcriptionDir : String := "data/transcriptions"

/-- The storage filename generated from the current UTC time. -/
def jsonFilename (t : Timestamp) : String := "transcription_" ++ tsCompact t ++ ".json"

/-- The full storage path. -/
def jsonFilePath (t : Timestamp) : String := transcriptionDir ++ "/" ++ jsonFilename t

/-! ## The pipeline stages -/

/-- The tri state outcome of the Azure recognize_once call: the result
reason is RecognizedSpeech carrying text, NoMatch, or any other reason,
which the source treats as failure. -/
inductive RecogResult
  | recognized (text : String)
  | noMatch
  | canceled (reason : String)
deriving DecidableEq

/-- The external world of one run: what the collaborating services do.
Every run of the Python program corresponds to one Env value. -/
structure Env where
  url : String
  tempDir : String
  downloadedFile : String
  wavPath : String
  ytOk : Bool
  ytErrMsg : String
  convertOk : Bool
  convertErrMsg : String
  uploadDate : Option String
  durationString : Option String
  language : Option String
  title : Option String
  recog : RecogResult
  transcriptionDate : String
  saveTime : Timestamp
deriving DecidableEq

/-- os.path.basename for forward slash paths. -/
def basename (s : String) : String :=
  ⟨s.toList.foldl (fun acc c => if cn c = 47 then [] else acc ++ [c]) []⟩

instance {α β : Type} [DecidableEq α] [DecidableEq β] : DecidableEq (Except α β) :=
  fun x y =>
  match x, y with
  | .error a, .error b =>
    if h : a = b then isTrue (by rw [h]) else isFalse (by intro hc; cases hc; exact h rfl)
  | .ok a, .ok b =>
    if h : a = b then isTrue (by rw [h]) else isFalse (by intro hc; cases hc; exact h rfl)
  | .error _, .ok _ => isFalse (by intro hc; cases hc)
  | .ok _, .error _ => isFalse (by intro hc; cases hc)

/-- What the fetch stage leaves behind: its result or exception, the disk
state, the console output, and whether the scratch directory named in the
download output template still existed when the download was performed. -/
structure DLOut where
  res : Except String AudioDLData
  fs : FS
  msgs : List String
  dirExistedAtDownload : Option Bool
deriving DecidableEq

/-- download_audio_from_yt.  The TemporaryDirectory context manager only
wraps the construction of ydl_opts: the scratch directory is created and
then deleted again as the with block exits, before the download runs.
yt_dlp itself recreates missing directories of its output template, so the
media file still appears under the old path; NamedTemporaryFile with
delete False creates the wav file at once.  Metadata is read by direct
dict indexing; to_iso_date on a missing or unparseable upload date raises,
and the surrounding except wraps every failure in a RuntimeError. -/
def download_audio_from_yt (env : Env) (fs : FS) : DLOut :=
  let fs1 := (fs.addDir env.tempDir).removeDir env.tempDir
  let m1 := ["Downloading audio from: " ++ env.url]
  if env.ytOk = false then
    { res := .error ("Failed to download or convert audio: " ++ env.ytErrMsg),
      fs := fs1, msgs := m1, dirExistedAtDownload := some (fs1.hasDir env.tempDir) }
  else
    let dirFlag := fs1.hasDir env.tempDir
    let fs2 := (fs1.addDir env.tempDir).addFile env.downloadedFile .binary
    let fs3 := fs2.addFile env.wavPath .binary
    let m2 := m1 ++ ["Converting audio to WAV format..."]
    if env.convertOk = false then
      { res := .error ("Failed to download or convert audio: " ++ env.convertErrMsg),
        fs := fs3, msgs := m2, dirExistedAtDownload := some dirFlag }
    else
      match to_iso_date_py env.uploadDate with
      | .error e =>
        { res := .error ("Failed to download or convert audio: " ++ e),
          fs := fs3, msgs := m2, dirExistedAtDownload := some dirFlag }
      | .ok iso =>
        { res := .ok { source_url := env.url, audio_file_path := env.wavPath,
                       audio_source_date := some iso,
                       duration_string := env.durationString,
                       language := env.language, title := env.title },
          fs := fs3.removeFile env.downloadedFile, msgs := m2,
          dirExistedAtDownload := some dirFlag }

/-- transcribe_audio: runs the recognizer and maps the result reason; on
RecognizedSpeech it assembles the full record, on NoMatch or any other
reason it returns the empty dict, modelled as none. -/
def transcribe_audio (env : Env) (dl : AudioDLData) : Option TranscriptionData × List String :=
  let m1 := ["Starting transcription of file " ++ basename dl.audio_file_path]
  match env.recog with
  | .recognized text =>
    (some { source_url := dl.source_url, transcription_text := text,
            transcription_date := env.transcriptionDate,
            audio_source_date := dl.audio_source_date,
            duration_string := dl.duration_string,
            language := dl.language, title := dl.title },
     m1 ++ ["Transcription successful!"])
  | .noMatch => (none, m1 ++ ["No speech could be recognized."])
  | .canceled reason =>
    (none, m1 ++ ["Speech recognition failed. Reason: " ++ reason])

/-- save_transcription_to_json: name the file from the current UTC second
and write the serialized record.  The storage directory is never created
by the program; if it does not exist, open raises FileNotFoundError before
anything is written. -/
def save_transcription_to_json (now : Timestamp) (r : TranscriptionData) (fs : FS) :
    Except String (String × FS) :=
  if fs.hasDir transcriptionDir then
    .ok (jsonFilePath now, fs.setFile (jsonFilePath now) (.json (recordToDoc r)))
  else
    .error ("FileNotFoundError: " ++ jsonFilePath now)

/-- What process_audio_from_url returns: the record dict on success, the
empty dict when recognition found nothing or failed, and the empty string
from the except handler. -/
inductive PipeResult
  | record (r : TranscriptionData)
  | emptyDict
  | pyStr (s : String)
deriving DecidableEq

/-- One full run: the returned value, the final disk state, the console
output, and which stages ran. -/
structure RunOut where
  res : PipeResult
  fs : FS
  msgs : List String
  recognizeCalled : Bool
  saveCalled : Option TranscriptionData
  dirExistedAtDownload : Option Bool
deriving DecidableEq

/-- process_audio_from_url: fetch, recognize, persist when the result dict
is truthy, then remove the wav file; any exception is caught, printed and
turned into the empty string.  The wav cleanup sits after the persist
call inside the try block, so it is skipped when an exception occurs. -/
def process_audio_from_url (env : Env) (fs : FS) : RunOut :=
  let d := download_audio_from_yt env fs
  match d.res with
  | .error e =>
    { res := .pyStr "", fs := d.fs,
      msgs := d.msgs ++ ["Error processing audio: " ++ e],
      recognizeCalled := false, saveCalled := none,
      dirExistedAtDownload := d.dirExistedAtDownload }
  | .ok dl =>
    let t := transcribe_audio env dl
    match t.1 with
    | some r =>
      match save_transcription_to_json env.saveTime r d.fs with
      | .ok pathfs =>
        { res := .record r, fs := pathfs.2.removeFile dl.audio_file_path,
          msgs := d.msgs ++ t.2 ++ ["Transcription saved to " ++ pathfs.1],
          recognizeCalled := true, saveCalled := some r,
          dirExistedAtDownload := d.dirExistedAtDownload }
      | .error e =>
        { res := .pyStr "", fs := d.fs,
          msgs := d.msgs ++ t.2 ++ ["Error processing audio: " ++ e],
          recognizeCalled := true, saveCalled := some r,
          dirExistedAtDownload := d.dirExistedAtDownload }
    | none =>
      { res := .emptyDict, fs := d.fs.removeFile dl.audio_file_path,
        msgs := d.msgs ++ t.2,
        recognizeCalled := true, saveCalled := none,
        dirExistedAtDownload := d.dirExistedAtDownload }

/-- The record transcribe_audio assembles for a given environment and
recognized text, given the ISO date the fetch computed. -/
def assembledRecord (env : Env) (text iso : String) : TranscriptionData :=
  { source_url := env.url, transcription_text := text,
    transcription_date := env.transcriptionDate,
    audio_source_date := some iso,
    duration_string := env.durationString,
    language := env.language, title := env.title }

/-- The fetch stage succeeds: downloading, converting, and the upload date
parse all succeed. -/
def fetchOk (env : Env) : Bool :=
  env.ytOk && env.convertOk &&
    (match to_iso_date_py env.uploadDate with | .ok _ => true | .error _ => false)

/-- A concrete external world used by witnesses and counterexamples:
download and conversion succeed, the scratch paths are the usual temp
names, and the optional metadata fields are absent. -/
def sampleEnv (recog : RecogResult) (upload : Option String) : Env :=
  ⟨"https://example.test/v", "/tmp/tmpabc", "/tmp/tmpabc/clip.webm", "/tmp/tmpxyz.wav",
   true, "", true, "", upload, none, none, none, recog,
   "2024-02-14T00:00:00+00:00", ⟨2024, 2, 14, 0, 0, 0, 0⟩⟩

/-! ## Startup configuration check

The module reads AZURE_SPEECH_KEY and AZURE_REGION from the environment
at module load and raises ValueError when either is falsy, i.e. unset or
the empty string; nothing else in the module runs after that. -/

/-- Python truthiness of os.getenv output: None and the empty string are
falsy. -/
def pyFalsy : Option String → Bool
  | none => true
  | some s => s == ""

/-- The import time configuration check of transcription.py. -/
def moduleStartupCheck (key region : Option String) : Except String Unit :=
  if pyFalsy key || pyFalsy region then
    .error "Azure Speech key or region is not set in the .env file."
  else
    .ok ()

/-- The whole program: module import (which performs the configuration
check) followed by a pipeline run; an import failure prevents any
processing. -/
def runWithConfig (key region : Option String) (env : Env) (fs : FS) :
    Except String RunOut :=
  match moduleStartupCheck key region with
  | .error e => .error e
  | .ok _ => .ok (process_audio_from_url env fs)

/-! # Theorems

## Basic digit and filesystem lemmas -/

theorem cn_dc {k : Nat} (h : k < 10) : cn (dc k) = 48 + k := by
  interval_cases k <;> rfl

theorem dc_inj {a b : Nat} (ha : a < 10) (hb : b < 10) (h : dc a = dc b) : a = b := by
  have h2 := congrArg cn h
  rw [cn_dc ha, cn_dc hb] at h2
  omega

theorem digits2_inj {a b : Nat} (ha : a < 100) (hb : b < 100)
    (h : digits2 a = digits2 b) : a = b := by
  simp only [digits2, List.cons.injEq, and_true] at h
  obtain ⟨h1, h2⟩ := h
  have e1 := dc_inj (by omega) (by omega) h1
  have e2 := dc_inj (by omega) (by omega) h2
  omega

theorem digits4_inj {a b : Nat} (ha : a < 10000) (hb : b < 10000)
    (h : digits4 a = digits4 b) : a = b := by
  simp only [digits4, List.cons.injEq, and_true] at h
  obtain ⟨h1, h2, h3, h4⟩ := h
  have e1 := dc_inj (by omega) (by omega) h1
  have e2 := dc_inj (by omega) (by omega) h2
  have e3 := dc_inj (by omega) (by omega) h3
  have e4 := dc_inj (by omega) (by omega) h4
  omega

theorem hasDir_removeDir (fs : FS) (p : String) : (fs.removeDir p).hasDir p = false := by
  simp only [FS.hasDir, FS.removeDir]
  induction fs.dirs with
  | nil => rfl
  | cons a t ih =>
    by_cases h : a = p
    · simp [List.filter_cons, h, ih]
    · simp [List.filter_cons, h, List.any_cons, ih]

theorem hasDir_reAdd (fs : FS) (t d : String) (h : fs.hasDir d = true) :
    (((fs.addDir t).removeDir t).addDir t).hasDir d = true := by
  simp only [FS.hasDir, FS.addDir, FS.removeDir, List.any_cons, Bool.or_eq_true,
    beq_iff_eq] at h ⊢
  by_cases e : t = d
  · exact Or.inl e
  · refine Or.inr ?_
    obtain ⟨x, hx, hxd⟩ := List.any_eq_true.mp h
    refine List.any_eq_true.mpr ⟨x, List.mem_filter.mpr ⟨List.mem_cons_of_mem t hx, ?_⟩, hxd⟩
    have hx2 : x = d := by simpa using hxd
    subst hx2
    simpa [bne_iff_ne] using fun q => e q.symm

theorem hasFile_removeFile (fs : FS) (p : String) : (fs.removeFile p).hasFile p = false := by
  simp only [FS.hasFile, FS.removeFile]
  induction fs.files with
  | nil => rfl
  | cons a t ih =>
    by_cases h : a.1 = p
    · simp [List.filter_cons, h, ih]
    · simp [List.filter_cons, h, List.any_cons, ih]

theorem hasFile_addFile_ne (fs : FS) (p q : String) (d : FData) (h : p ≠ q)
    (h2 : fs.hasFile p = false) : (fs.addFile q d).hasFile p = false := by
  simp only [FS.hasFile, FS.addFile, List.any_cons] at h2 ⊢
  simp [h2, Ne.symm h]

theorem hasFile_removeFile_other (fs : FS) (p q : String) (h : fs.hasFile p = false) :
    (fs.removeFile q).hasFile p = false := by
  simp only [FS.hasFile, FS.removeFile] at h ⊢
  rw [List.any_eq_false] at h ⊢
  intro x hx
  exact h x (List.mem_filter.mp hx).1

/-! storedRecords is untouched by directory operations, by binary scratch
files, and by removing a path that stores no document. -/

theorem storedRecords_addDir (fs : FS) (p : String) :
    storedRecords (fs.addDir p) = storedRecords fs := rfl

theorem storedRecords_removeDir (fs : FS) (p : String) :
    storedRecords (fs.removeDir p) = storedRecords fs := rfl

theorem storedRecords_addFile_binary (fs : FS) (p : String) :
    storedRecords (fs.addFile p .binary) = storedRecords fs := rfl

theorem filterMap_jEntry_filter (l : List (String × FData)) (p : String)
    (h : ∀ doc, (p, FData.json doc) ∉ l) :
    (l.filter (fun q => q.1 != p)).filterMap jEntry = l.filterMap jEntry := by
  induction l with
  | nil => rfl
  | cons a t ih =>
    have ht : ∀ doc, (p, FData.json doc) ∉ t :=
      fun doc hd => h doc (List.mem_cons_of_mem a hd)
    obtain ⟨a1, d⟩ := a
    by_cases hp : a1 = p
    · subst hp
      cases d with
      | binary => simp [List.filter_cons, List.filterMap_cons, jEntry, ih ht]
      | json doc => exact absurd (List.mem_cons_self _ _) (h doc)
    · cases d with
      | binary => simp [List.filter_cons, List.filterMap_cons, jEntry, hp, ih ht]
      | json doc => simp [List.filter_cons, List.filterMap_cons, jEntry, hp, ih ht]

theorem storedRecords_removeFile (fs : FS) (p : String) (h : noJsonAt fs p) :
    storedRecords (fs.removeFile p) = storedRecords fs :=
  filterMap_jEntry_filter fs.files p h

theorem noJsonAt_addFile_binary (fs : FS) (p q : String) (h : noJsonAt fs p) :
    noJsonAt (fs.addFile q FData.binary) p := by
  intro doc hd
  simp only [FS.addFile, List.mem_cons] at hd
  rcases hd with hd | hd
  · exact FData.noConfusion (congrArg Prod.snd hd)
  · exact h doc hd

theorem noJsonAt_removeFile (fs : FS) (p q : String) (h : noJsonAt fs p) :
    noJsonAt (fs.removeFile q) p := by
  intro doc hd
  exact h doc (List.mem_filter.mp hd).1

theorem noJsonAt_of_hasFile_false (fs : FS) (p : String) (h : fs.hasFile p = false) :
    noJsonAt fs p := by
  intro doc hd
  have h2 := List.any_eq_false.mp h _ hd
  simp at h2

theorem string_data_mk (l : List Char) : (String.mk l).data = l := rfl

/-- The second granularity storage name determines, and is determined by,
the wall clock second. -/
theorem tsCompact_eq_iff (t1 t2 : Timestamp) (h1 : tsBounds t1) (h2 : tsBounds t2) :
    tsCompact t1 = tsCompact t2 ↔ sameSecond t1 t2 := by
  obtain ⟨b1y, b1y2, b1mo, b1mo2, b1d, b1d2, b1h, b1mi, b1s, -⟩ := h1
  obtain ⟨b2y, b2y2, b2mo, b2mo2, b2d, b2d2, b2h, b2mi, b2s, -⟩ := h2
  constructor
  · intro h
    have hd := congrArg String.data h
    unfold tsCompact at hd
    rw [string_data_mk, string_data_mk] at hd
    obtain ⟨ey, hd⟩ := List.append_inj hd rfl
    obtain ⟨emo, hd⟩ := List.append_inj hd rfl
    obtain ⟨ed, hd⟩ := List.append_inj hd rfl
    obtain ⟨eh, hd⟩ := List.append_inj hd rfl
    obtain ⟨emi, es⟩ := List.append_inj hd rfl
    exact ⟨digits4_inj (by omega) (by omega) ey, digits2_inj (by omega) (by omega) emo,
      digits2_inj (by omega) (by omega) ed, digits2_inj (by omega) (by omega) eh,
      digits2_inj (by omega) (by omega) emi, digits2_inj (by omega) (by omega) es⟩
  · intro hs
    obtain ⟨e1, e2, e3, e4, e5, e6⟩ := hs
    unfold tsCompact
    rw [e1, e2, e3, e4, e5, e6]

theorem jsonFilename_eq_iff_tsCompact (t1 t2 : Timestamp) :
    jsonFilename t1 = jsonFilename t2 ↔ tsCompact t1 = tsCompact t2 := by
  constructor
  · intro h
    have hd := congrArg String.data h
    simp only [jsonFilename, String.data_append] at hd
    obtain ⟨hd, -⟩ := List.append_inj' hd rfl
    exact String.ext (List.append_cancel_left hd)
  · intro h
    unfold jsonFilename
    rw [h]

/-- Claim C6 (amended): two records persisted within the same UTC second
receive the SAME storage filename, because save_transcription_to_json
names the file from the current UTC timestamp at second granularity;
distinct filenames arise exactly when the persists fall in different
seconds. -/
theorem C6_same_second_same_filename (t1 t2 : Timestamp)
    (h1 : tsBounds t1) (h2 : tsBounds t2) :
    jsonFilename t1 = jsonFilename t2 ↔ sameSecond t1 t2 :=
  (jsonFilename_eq_iff_tsCompact t1 t2).trans (tsCompact_eq_iff t1 t2 h1 h2)

theorem C6_same_second_same_filename_witness :
    jsonFilename ⟨2024, 2, 14, 12, 30, 45, 0⟩ = jsonFilename ⟨2024, 2, 14, 12, 30, 45, 999999⟩
      ↔ sameSecond ⟨2024, 2, 14, 12, 30, 45, 0⟩ ⟨2024, 2, 14, 12, 30, 45, 999999⟩ :=
  C6_same_second_same_filename ⟨2024, 2, 14, 12, 30, 45, 0⟩ ⟨2024, 2, 14, 12, 30, 45, 999999⟩
    (by decide) (by decide)

/-- Claim C6, counterexample: two records persisted back to back at two
distinct instants of the same UTC second receive the SAME storage path,
not distinct ones, and the second write silently replaces the first
document. -/
theorem C6_counterexample :
    ((⟨2024, 2, 14, 12, 0, 0, 0⟩ : Timestamp) ≠ ⟨2024, 2, 14, 12, 0, 0, 500000⟩) ∧
    save_transcription_to_json ⟨2024, 2, 14, 12, 0, 0, 0⟩
        ⟨"url-a", "text a", "ta", none, none, none, none⟩
        ⟨["data/transcriptions"], []⟩
      = .ok ("data/transcriptions/transcription_20240214120000.json",
          ⟨["data/transcriptions"],
           [("data/transcriptions/transcription_20240214120000.json",
             .json (recordToDoc ⟨"url-a", "text a", "ta", none, none, none, none⟩))]⟩) ∧
    save_transcription_to_json ⟨2024, 2, 14, 12, 0, 0, 500000⟩
        ⟨"url-b", "text b", "tb", none, none, none, none⟩
        ⟨["data/transcriptions"],
         [("data/transcriptions/transcription_20240214120000.json",
           .json (recordToDoc ⟨"url-a", "text a", "ta", none, none, none, none⟩))]⟩
      = .ok ("data/transcriptions/transcription_20240214120000.json",
          ⟨["data/transcriptions"],
           [("data/transcriptions/transcription_20240214120000.json",
             .json (recordToDoc ⟨"url-b", "text b", "tb", none, none, none, none⟩))]⟩) := by
  refine ⟨by decide, ?_, ?_⟩ <;> rfl

/-- Claim C9 (amended): a missing OR EMPTY speech service credential or
region is a fatal configuration error at module import, before any
pipeline processing can run; with both present and non-empty, startup
succeeds and the pipeline runs. -/
theorem C9_startup_config (key region : Option String) :
    ((key = none ∨ key = some "" ∨ region = none ∨ region = some "") →
      moduleStartupCheck key region =
        .error "Azure Speech key or region is not set in the .env file." ∧
      ∀ env fs, runWithConfig key region env fs =
        .error "Azure Speech key or region is not set in the .env file.") ∧
    (∀ k r, key = some k → k ≠ "" → region = some r → r ≠ "" →
      moduleStartupCheck key region = .ok () ∧
      ∀ env fs, runWithConfig key region env fs = .ok (process_audio_from_url env fs)) := by
  constructor
  · intro h
    have hc : moduleStartupCheck key region =
        .error "Azure Speech key or region is not set in the .env file." := by
      rcases h with h | h | h | h <;> subst h <;> simp [moduleStartupCheck, pyFalsy]
    exact ⟨hc, fun env fs => by simp [runWithConfig, hc]⟩
  · intro k r hk hke hr hre
    subst hk
    subst hr
    have hc : moduleStartupCheck (some k) (some r) = .ok () := by
      simp [moduleStartupCheck, pyFalsy, hke, hre]
    exact ⟨hc, fun env fs => by simp [runWithConfig, hc]⟩

theorem C9_startup_config_witness :
    moduleStartupCheck none (some "westeurope") =
      .error "Azure Speech key or region is not set in the .env file." ∧
    moduleStartupCheck (some "secret-key") (some "westeurope") = .ok () :=
  ⟨((C9_startup_config none (some "westeurope")).1 (Or.inl rfl)).1,
   ((C9_startup_config (some "secret-key") (some "westeurope")).2 "secret-key" "westeurope"
      rfl (by decide) rfl (by decide)).1⟩

/-- Claim C9, counterexample: with BOTH secrets present in the
environment but the key set to the empty string, startup still fails,
because the source tests Python truthiness, not presence. -/
theorem C9_counterexample :
    moduleStartupCheck (some "") (some "westeurope") =
      .error "Azure Speech key or region is not set in the .env file." := rfl

/-- Claim C7 (code bug): the scratch directory named in the yt_dlp output
template does NOT exist at the time the download is performed: the
TemporaryDirectory with block only wraps the construction of ydl_opts, so
the directory is deleted again before the download runs, on every run and
whatever the starting disk state. -/
theorem C7_tempdir_gone_at_download (env : Env) (fs : FS) :
    (download_audio_from_yt env fs).dirExistedAtDownload = some false := by
  unfold download_audio_from_yt
  have hgone := hasDir_removeDir (fs.addDir env.tempDir) env.tempDir
  by_cases h : env.ytOk = false
  · simp [h, hgone]
  · simp only [h, if_false]
    by_cases h2 : env.convertOk = false
    · simp [h2, hgone]
    · simp only [h2, if_false]
      cases to_iso_date_py env.uploadDate <;> simp [hgone]

theorem hasDir_addFile (fs : FS) (p q : String) (d : FData) :
    (fs.addFile q d).hasDir p = fs.hasDir p := rfl

theorem hasDir_removeFile (fs : FS) (p q : String) :
    (fs.removeFile q).hasDir p = fs.hasDir p := rfl

theorem hasDir_reAdd_false (fs : FS) (t d : String) (h : fs.hasDir d = false)
    (hne : t ≠ d) : (((fs.addDir t).removeDir t).addDir t).hasDir d = false := by
  simp only [FS.hasDir, FS.addDir, FS.removeDir, List.any_cons, Bool.or_eq_false_iff]
  refine ⟨by simp [hne], ?_⟩
  rw [List.any_eq_false]
  intro x hx
  have hx2 := List.mem_filter.mp hx
  rcases List.mem_cons.mp hx2.1 with he | hm
  · subst he
    simp at hx2
  · simp only [FS.hasDir] at h
    exact List.any_eq_false.mp h x hm

theorem noJsonAt_addDir (fs : FS) (p q : String) (h : noJsonAt fs p) :
    noJsonAt (fs.addDir q) p := h

theorem noJsonAt_removeDir (fs : FS) (p q : String) (h : noJsonAt fs p) :
    noJsonAt (fs.removeDir q) p := h

/-- Stored documents after the fetch stage has created and removed its
scratch files: unchanged, provided the scratch paths carried no document
beforehand. -/
theorem storedRecords_dl (fs : FS) (t df wf : String) (hd : noJsonAt fs df) :
    storedRecords ((((((fs.addDir t).removeDir t).addDir t).addFile df .binary).addFile
      wf .binary).removeFile df) = storedRecords fs := by
  have h1 : noJsonAt (((((fs.addDir t).removeDir t).addDir t).addFile df
      FData.binary).addFile wf FData.binary) df :=
    noJsonAt_addFile_binary _ _ _ (noJsonAt_addFile_binary _ _ _ hd)
  rw [storedRecords_removeFile _ _ h1]
  rfl

/-- Stored documents after the run also removed the wav file. -/
theorem storedRecords_scratch (fs : FS) (t df wf : String)
    (hd : noJsonAt fs df) (hw : noJsonAt fs wf) :
    storedRecords (((((((fs.addDir t).removeDir t).addDir t).addFile df .binary).addFile
      wf .binary).removeFile df).removeFile wf) = storedRecords fs := by
  have h2 : noJsonAt ((((((fs.addDir t).removeDir t).addDir t).addFile df
      FData.binary).addFile wf FData.binary).removeFile df) wf :=
    noJsonAt_removeFile _ _ _
      (noJsonAt_addFile_binary _ _ _ (noJsonAt_addFile_binary _ _ _ hw))
  rw [storedRecords_removeFile _ _ h2]
  exact storedRecords_dl fs t df wf hd

theorem fetchOk_true_iff (env : Env) : fetchOk env = true ↔
    env.ytOk = true ∧ env.convertOk = true ∧
      ∃ iso, to_iso_date_py env.uploadDate = .ok iso := by
  unfold fetchOk
  cases henv : to_iso_date_py env.uploadDate <;>
    simp [henv, Bool.and_eq_true, and_assoc]

/-- Claim C4 (amended): when the download and the conversion succeed, an
unavailable or unparseable upload date makes the WHOLE fetch fail with a
RuntimeError, because to_iso_date raises out of the metadata block; only
the duration, language and title fields pass through as possibly absent
values without aborting the fetch. -/
theorem C4_metadata_aborts_fetch (env : Env) (fs : FS)
    (h1 : env.ytOk = true) (h2 : env.convertOk = true) :
    (∀ e, to_iso_date_py env.uploadDate = .error e →
      (download_audio_from_yt env fs).res =
        .error ("Failed to download or convert audio: " ++ e)) ∧
    (∀ iso, to_iso_date_py env.uploadDate = .ok iso →
      (download_audio_from_yt env fs).res = .ok
        { source_url := env.url, audio_file_path := env.wavPath,
          audio_source_date := some iso, duration_string := env.durationString,
          language := env.language, title := env.title }) := by
  constructor <;> intro x hx <;> unfold download_audio_from_yt <;> simp [h1, h2, hx]

theorem C4_metadata_aborts_fetch_witness :
    (download_audio_from_yt
        ⟨"https://example.test/v", "/tmp/tmpabc", "/tmp/tmpabc/clip.webm",
         "/tmp/tmpxyz.wav", true, "", true, "", some "20240214", none, none, none,
         .noMatch, "2024-02-14T00:00:00+00:00", ⟨2024, 2, 14, 0, 0, 0, 0⟩⟩
        ⟨[], []⟩).res = .ok
      { source_url := "https://example.test/v", audio_file_path := "/tmp/tmpxyz.wav",
        audio_source_date := some "2024-02-14", duration_string := none,
        language := none, title := none } :=
  (C4_metadata_aborts_fetch _ _ rfl rfl).2 "2024-02-14" rfl

/-- Claim C4, counterexample: the download and the conversion succeed, the
info dict merely carries an unparseable upload date, and the whole fetch
fails with a RuntimeError instead of degrading that one field to an
absent value. -/
theorem C4_counterexample :
    (download_audio_from_yt
        ⟨"https://example.test/v", "/tmp/tmpabc", "/tmp/tmpabc/clip.webm",
         "/tmp/tmpxyz.wav", true, "", true, "", some "not-a-date", some "3:25",
         some "en", some "Title", .noMatch, "2024-02-14T00:00:00+00:00",
         ⟨2024, 2, 14, 0, 0, 0, 0⟩⟩
        ⟨[], []⟩).res =
      .error "Failed to download or convert audio: Could not parse date: not-a-date" := by
  rfl

/-- Claim C1: when the fetch succeeds, a run whose recognition succeeds
with (non empty) text calls save_transcription_to_json on the assembled
record, and a run whose recognition yields NoMatch or a service failure
calls no save and writes nothing to storage. -/
theorem C1_persist_iff_text (env : Env) (fs : FS) (iso : String)
    (h1 : env.ytOk = true) (h2 : env.convertOk = true)
    (h3 : to_iso_date_py env.uploadDate = .ok iso)
    (hwf : noJsonAt fs env.wavPath) (hdf : noJsonAt fs env.downloadedFile) :
    (∀ text, env.recog = .recognized text → text ≠ "" →
      (process_audio_from_url env fs).saveCalled =
        some (assembledRecord env text iso)) ∧
    ((env.recog = .noMatch ∨ (∃ r, env.recog = .canceled r)) →
      (process_audio_from_url env fs).saveCalled = none ∧
      storedRecords (process_audio_from_url env fs).fs = storedRecords fs) := by
  constructor
  · intro text hr htext
    unfold process_audio_from_url download_audio_from_yt transcribe_audio
    simp only [h1, h2, h3, hr]
    by_cases hdir : (((((((fs.addDir env.tempDir).removeDir env.tempDir).addDir
        env.tempDir).addFile env.downloadedFile .binary).addFile env.wavPath
        .binary).removeFile env.downloadedFile)).hasDir transcriptionDir
    · simp [save_transcription_to_json, hdir, assembledRecord]
    · simp at hdir
      simp [save_transcription_to_json, hdir, assembledRecord]
  · intro hr
    rcases hr with hr | ⟨r, hr⟩ <;>
    · unfold process_audio_from_url download_audio_from_yt transcribe_audio
      simp only [h1, h2, h3, hr]
      refine ⟨by simp, ?_⟩
      have hsc := storedRecords_scratch fs env.tempDir env.downloadedFile env.wavPath hdf hwf
      simpa using hsc

theorem C1_persist_iff_text_witness :
    (process_audio_from_url (sampleEnv (.recognized "hello world") (some "20240214"))
        ⟨["data/transcriptions"], []⟩).saveCalled =
      some (assembledRecord (sampleEnv (.recognized "hello world") (some "20240214"))
        "hello world" "2024-02-14") :=
  (C1_persist_iff_text (sampleEnv (.recognized "hello world") (some "20240214"))
      ⟨["data/transcriptions"], []⟩ "2024-02-14" rfl rfl rfl (by simp [noJsonAt])
      (by simp [noJsonAt])).1 "hello world" rfl (by decide)

/-- Claim C2 (amended): scratch files are removed on runs where every
stage after their creation succeeds: when the fetch succeeds and, if the
recognition outcome is RecognizedSpeech, the persist also succeeds, then
neither the downloaded media file nor the waveform file remains on disk
at the end of the run, whatever the recognition outcome was.  When a
stage raises after a scratch file was created (the counterexample), the
cleanup after the happy path is skipped and the file remains. -/
theorem C2_cleanup_on_success (env : Env) (fs : FS) (iso : String)
    (h1 : env.ytOk = true) (h2 : env.convertOk = true)
    (h3 : to_iso_date_py env.uploadDate = .ok iso)
    (h4 : fs.hasDir transcriptionDir = true)
    (h5 : env.downloadedFile ≠ jsonFilePath env.saveTime) :
    (process_audio_from_url env fs).fs.hasFile env.wavPath = false ∧
    (process_audio_from_url env fs).fs.hasFile env.downloadedFile = false := by
  have hdir : ((((((fs.addDir env.tempDir).removeDir env.tempDir).addDir
      env.tempDir).addFile env.downloadedFile .binary).addFile env.wavPath
      .binary).removeFile env.downloadedFile).hasDir transcriptionDir = true := by
    rw [hasDir_removeFile, hasDir_addFile, hasDir_addFile]
    exact hasDir_reAdd fs env.tempDir transcriptionDir h4
  unfold process_audio_from_url download_audio_from_yt transcribe_audio
  cases hr : env.recog with
  | recognized text =>
    simp only [h1, h2, h3, hr]
    simp [save_transcription_to_json, hdir, FS.setFile]
    constructor
    · exact hasFile_removeFile _ _
    · apply hasFile_removeFile_other
      apply hasFile_addFile_ne _ _ _ _ h5
      apply hasFile_removeFile_other
      exact hasFile_removeFile _ _
  | noMatch =>
    simp only [h1, h2, h3, hr]
    simp
    constructor
    · exact hasFile_removeFile _ _
    · apply hasFile_removeFile_other
      exact hasFile_removeFile _ _
  | canceled reason =>
    simp only [h1, h2, h3, hr]
    simp
    constructor
    · exact hasFile_removeFile _ _
    · apply hasFile_removeFile_other
      exact hasFile_removeFile _ _

theorem C2_cleanup_on_success_witness :
    (process_audio_from_url (sampleEnv .noMatch (some "20240214"))
      ⟨["data/transcriptions"], []⟩).fs.hasFile "/tmp/tmpxyz.wav" = false ∧
    (process_audio_from_url (sampleEnv .noMatch (some "20240214"))
      ⟨["data/transcriptions"], []⟩).fs.hasFile "/tmp/tmpabc/clip.webm" = false :=
  C2_cleanup_on_success (sampleEnv .noMatch (some "20240214"))
    ⟨["data/transcriptions"], []⟩ "2024-02-14" rfl rfl rfl rfl (by decide)

/-- Claim C2, counterexample: the fetch and the recognition succeed but
the persist raises (the storage directory does not exist), so the run
fails AND the waveform file passed to the recognizer is still on disk
after the run: the cleanup is skipped on the exception path. -/
theorem C2_counterexample :
    (process_audio_from_url (sampleEnv (.recognized "hello world") (some "20240214"))
      ⟨[], []⟩).res = .pyStr "" ∧
    (process_audio_from_url (sampleEnv (.recognized "hello world") (some "20240214"))
      ⟨[], []⟩).fs.hasFile "/tmp/tmpxyz.wav" = true :=
  ⟨rfl, rfl⟩

/-- Claim C5: whenever a stage fails, the run aborts without executing
the later stages, the error is reported on the console, and the
orchestrator returns an empty or falsy result with no stored path: a
fetch failure skips recognition and persistence and returns the empty
string; a recognition service failure skips persistence and returns the
empty dict; a persistence failure returns the empty string; in every case
nothing new is written to the document store. -/
theorem C5_stage_failure_aborts (env : Env) (fs : FS)
    (hwf : noJsonAt fs env.wavPath) (hdf : noJsonAt fs env.downloadedFile) :
    (fetchOk env = false →
      (process_audio_from_url env fs).res = .pyStr "" ∧
      (process_audio_from_url env fs).recognizeCalled = false ∧
      (process_audio_from_url env fs).saveCalled = none ∧
      storedRecords (process_audio_from_url env fs).fs = storedRecords fs ∧
      ∃ e, ("Error processing audio: " ++ e) ∈ (process_audio_from_url env fs).msgs) ∧
    (∀ reason, fetchOk env = true → env.recog = .canceled reason →
      (process_audio_from_url env fs).res = .emptyDict ∧
      (process_audio_from_url env fs).saveCalled = none ∧
      storedRecords (process_audio_from_url env fs).fs = storedRecords fs ∧
      ("Speech recognition failed. Reason: " ++ reason) ∈
        (process_audio_from_url env fs).msgs) ∧
    (∀ text, fetchOk env = true → env.recog = .recognized text →
      fs.hasDir transcriptionDir = false → env.tempDir ≠ transcriptionDir →
      (process_audio_from_url env fs).res = .pyStr "" ∧
      storedRecords (process_audio_from_url env fs).fs = storedRecords fs ∧
      ∃ e, ("Error processing audio: " ++ e) ∈ (process_audio_from_url env fs).msgs) := by
  refine ⟨?_, ?_, ?_⟩
  · intro hfail
    by_cases hy : env.ytOk = true
    · by_cases hc : env.convertOk = true
      · cases hdate : to_iso_date_py env.uploadDate with
        | ok iso =>
          exact absurd ((fetchOk_true_iff env).mpr ⟨hy, hc, iso, hdate⟩)
            (by simp [hfail])
        | error e =>
          unfold process_audio_from_url download_audio_from_yt
          simp [hy, hc, hdate]
          exact ⟨rfl, ⟨"Failed to download or convert audio: " ++ e,
            Or.inr (Or.inr rfl)⟩⟩
      · have hc2 : env.convertOk = false := by
          cases hcc : env.convertOk
          · rfl
          · exact absurd hcc hc
        unfold process_audio_from_url download_audio_from_yt
        simp [hy, hc2]
        exact ⟨rfl, ⟨"Failed to download or convert audio: " ++ env.convertErrMsg,
          Or.inr (Or.inr rfl)⟩⟩
    · have hy2 : env.ytOk = false := by
        cases hyy : env.ytOk
        · rfl
        · exact absurd hyy hy
      unfold process_audio_from_url download_audio_from_yt
      simp [hy2]
      exact ⟨rfl, ⟨"Failed to download or convert audio: " ++ env.ytErrMsg, Or.inr rfl⟩⟩
  · intro reason hokF hr
    obtain ⟨hy, hc, iso, hdate⟩ := (fetchOk_true_iff env).mp hokF
    unfold process_audio_from_url download_audio_from_yt transcribe_audio
    simp only [hy, hc, hdate, hr]
    refine ⟨by simp, by simp, ?_, by simp⟩
    have hsc := storedRecords_scratch fs env.tempDir env.downloadedFile env.wavPath hdf hwf
    simpa using hsc
  · intro text hokF hr hdirF htne
    obtain ⟨hy, hc, iso, hdate⟩ := (fetchOk_true_iff env).mp hokF
    have hdir : ((((((fs.addDir env.tempDir).removeDir env.tempDir).addDir
        env.tempDir).addFile env.downloadedFile .binary).addFile env.wavPath
        .binary).removeFile env.downloadedFile).hasDir transcriptionDir = false := by
      rw [hasDir_removeFile, hasDir_addFile, hasDir_addFile]
      exact hasDir_reAdd_false fs env.tempDir transcriptionDir hdirF htne
    unfold process_audio_from_url download_audio_from_yt transcribe_audio
    simp only [hy, hc, hdate, hr]
    simp [save_transcription_to_json, hdir]
    have hsc := storedRecords_dl fs env.tempDir env.downloadedFile env.wavPath hdf
    exact ⟨hsc, ⟨"FileNotFoundError: " ++ jsonFilePath env.saveTime,
      Or.inr (Or.inr (Or.inr (Or.inr rfl)))⟩⟩

theorem C5_stage_failure_aborts_witness :
    (process_audio_from_url (sampleEnv (.canceled "ConnectionFailure") (some "20240214"))
      ⟨["data/transcriptions"], []⟩).res = .emptyDict ∧
    (process_audio_from_url (sampleEnv (.canceled "ConnectionFailure") (some "20240214"))
      ⟨["data/transcriptions"], []⟩).saveCalled = none :=
  ⟨((C5_stage_failure_aborts (sampleEnv (.canceled "ConnectionFailure") (some "20240214"))
      ⟨["data/transcriptions"], []⟩ (by simp [noJsonAt]) (by simp [noJsonAt])).2.1
      "ConnectionFailure" rfl rfl).1,
   ((C5_stage_failure_aborts (sampleEnv (.canceled "ConnectionFailure") (some "20240214"))
      ⟨["data/transcriptions"], []⟩ (by simp [noJsonAt]) (by simp [noJsonAt])).2.1
      "ConnectionFailure" rfl rfl).2.1⟩

theorem cn_inj {a b : Char} (h : cn a = cn b) : a = b := by
  unfold cn at h
  have h2 := congrArg Char.ofNat h
  rwa [Char.ofNat_toNat, Char.ofNat_toNat] at h2

theorem ofNat_cn (c : Char) : Char.ofNat (cn c) = c := Char.ofNat_toNat c

theorem hexVal_hexDig {k : Nat} (h : k < 16) : hexVal (hexDig k) = some k := by
  interval_cases k <;> rfl

set_option maxHeartbeats 2000000 in
/-- Unescaping inverts the escape of one character, whatever follows. -/
theorem jsonUnescape_escChar (c : Char) (t : List Char) :
    jsonUnescape (escChar c ++ t) = (jsonUnescape t).map (fun l => c :: l) := by
  by_cases h34 : cn c = 34
  · have hc : c = '"' := cn_inj h34
    subst hc
    rfl
  by_cases h92 : cn c = 92
  · have hc : c = '\\' := cn_inj h92
    subst hc
    rfl
  by_cases h10 : cn c = 10
  · have hc : c = '\n' := cn_inj h10
    subst hc
    rfl
  by_cases h13 : cn c = 13
  · have hc : c = '\r' := cn_inj h13
    subst hc
    rfl
  by_cases h9 : cn c = 9
  · have hc : c = '\t' := cn_inj h9
    subst hc
    rfl
  by_cases h8 : cn c = 8
  · have hc : c = '\x08' := cn_inj h8
    subst hc
    rfl
  by_cases h12 : cn c = 12
  · have hc : c = '\x0c' := cn_inj h12
    subst hc
    rfl
  by_cases hctl : cn c < 32
  · have e1 : hexVal (hexDig (cn c / 16)) = some (cn c / 16) := hexVal_hexDig (by omega)
    have e2 : hexVal (hexDig (cn c % 16)) = some (cn c % 16) := hexVal_hexDig (by omega)
    have he : escChar c = ['\\', 'u', '0', '0', hexDig (cn c / 16), hexDig (cn c % 16)] := by
      simp [escChar, h34, h92, h10, h13, h9, h8, h12, hctl]
    rw [he]
    simp only [List.cons_append, List.singleton_append, List.nil_append]
    rw [show jsonUnescape ('\\' :: 'u' :: '0' :: '0' :: hexDig (cn c / 16) ::
          hexDig (cn c % 16) :: t) =
        (match hexVal '0', hexVal '0', hexVal (hexDig (cn c / 16)),
               hexVal (hexDig (cn c % 16)) with
         | some a, some b, some c3, some c4 =>
           (jsonUnescape t).map
             (fun l => Char.ofNat (((a * 16 + b) * 16 + c3) * 16 + c4) :: l)
         | _, _, _, _ => none) from rfl]
    rw [e1, e2]
    show (jsonUnescape t).map
        (fun l => Char.ofNat (((0 * 16 + 0) * 16 + cn c / 16) * 16 + cn c % 16) :: l) =
      (jsonUnescape t).map (fun l => c :: l)
    have e3 : ((0 * 16 + 0) * 16 + cn c / 16) * 16 + cn c % 16 = cn c := by omega
    rw [e3, ofNat_cn]
  · have he : escChar c = [c] := by
      simp [escChar, h34, h92, h10, h13, h9, h8, h12, hctl]
    rw [he]
    simp only [List.singleton_append]
    have hc : c ≠ '\\' := by
      intro e
      subst e
      exact h92 rfl
    simp [jsonUnescape, hc]

/-- The round trip at the level of one JSON string body: json.load inverts
json.dump exactly, preserving all Unicode content. -/
theorem jsonUnescape_jsonEscape (cs : List Char) : jsonUnescape (jsonEscape cs) = some cs := by
  induction cs with
  | nil => rfl
  | cons c t ih =>
    have he : jsonEscape (c :: t) = escChar c ++ jsonEscape t := List.flatMap_cons c t escChar
    rw [he, jsonUnescape_escChar, ih]
    rfl

theorem string_mk_toList (s : String) : (⟨s.toList⟩ : String) = s := rfl

theorem decStr_encStr (s : String) : decStr (encStr s) = some s := by
  simp [decStr, encStr, jsonUnescape_jsonEscape, string_mk_toList]

theorem decOpt_encOpt (v : Option String) : decOpt (encOpt v) = some v := by
  cases v with
  | none => rfl
  | some s => simp [decOpt, encOpt, encStr, jsonUnescape_jsonEscape, string_mk_toList]

/-- First binding lookup agrees across permutations of an object with
distinct keys. -/
theorem lookupKey_perm {l1 l2 : List (String × JVal)} (p : l1.Perm l2) :
    (l1.map Prod.fst).Nodup → ∀ k, lookupKey k l1 = lookupKey k l2 := by
  induction p with
  | nil => intro _ _; rfl
  | cons x p ih =>
    intro nd k
    simp only [List.map_cons, List.nodup_cons] at nd
    cases hxk : (x.1 == k) with
    | true => simp [lookupKey, hxk]
    | false => simp [lookupKey, hxk, ih nd.2 k]
  | swap x y l =>
    intro nd k
    simp only [List.map_cons, List.nodup_cons, List.mem_cons] at nd
    have hneq : y.1 ≠ x.1 := fun e => nd.1 (Or.inl e)
    cases hy : (y.1 == k) with
    | true =>
      cases hx : (x.1 == k) with
      | true => exact absurd ((beq_iff_eq.mp hy).trans (beq_iff_eq.mp hx).symm) hneq
      | false => simp [lookupKey, hy, hx]
    | false =>
      cases hx : (x.1 == k) with
      | true => simp [lookupKey, hy, hx]
      | false => simp [lookupKey, hy, hx]
  | trans p1 p2 ih1 ih2 =>
    intro nd k
    have nd2 := ((p1.map Prod.fst).nodup_iff).mp nd
    exact (ih1 nd k).trans (ih2 nd2 k)

theorem docToRecord_recordToDoc (r : TranscriptionData) :
    docToRecord (recordToDoc r) = some r := by
  obtain ⟨su, tt, td, asd, ds, lg, ti⟩ := r
  simp [docToRecord, recordToDoc, lookupKey, decStr_encStr, decOpt_encOpt]

/-- Claim C8: parsing back the document written by
save_transcription_to_json yields field values identical to those passed
in, with exact Unicode content preserved (the escape and unescape round
trip is the identity on every string) and with no dependency on field
order (any permutation of the written object parses to the same
record). -/
theorem C8_roundtrip (r : TranscriptionData) (doc : List (String × JVal))
    (hp : doc.Perm (recordToDoc r)) : docToRecord doc = some r := by
  have nd : ((recordToDoc r).map Prod.fst).Nodup := by
    simp only [recordToDoc, List.map_cons, List.map_nil]
    decide
  have ndl : (doc.map Prod.fst).Nodup := ((hp.map Prod.fst).nodup_iff).mpr nd
  have hk := lookupKey_perm hp ndl
  have hrt := docToRecord_recordToDoc r
  unfold docToRecord at hrt ⊢
  rw [hk "source_url", hk "transcription_text", hk "transcription_date",
    hk "audio_source_date", hk "duration_string", hk "language", hk "title"]
  exact hrt

theorem C8_roundtrip_witness :
    docToRecord ((recordToDoc ⟨"https://example.test/v", "héllo wörld — ünïcode ✓",
        "2024-02-14T00:00:00+00:00", some "2024-02-14", none, some "de",
        some "Grüße"⟩).reverse) =
      some ⟨"https://example.test/v", "héllo wörld — ünïcode ✓",
        "2024-02-14T00:00:00+00:00", some "2024-02-14", none, some "de",
        some "Grüße"⟩ :=
  C8_roundtrip _ _ (List.reverse_perm _)

/-! ## The date parser on canonical renderings -/

theorem dval_dc {k : Nat} (h : k < 10) : dval (dc k) = k := by
  interval_cases k <;> rfl

theorem isDig_dc {k : Nat} (h : k < 10) : isDig (dc k) := by
  constructor <;> rw [cn_dc h] <;> omega

theorem isWS_dc {k : Nat} (h : k < 10) : isWS (dc k) = false := by
  simp only [isWS, cn_dc h]
  simp only [Bool.or_eq_false_iff, decide_eq_false_iff_not]
  omega

theorem skipWS_nonws (c : Char) (r : List Char) (h : isWS c = false) :
    skipWS (c :: r) = c :: r := by
  simp [skipWS, h]

/-! One step unfolding equations for runToks. -/

theorem runToks_nil (pd : PDate) (cs : List Char) : runToks [] pd cs = [(pd, cs)] := rfl

theorem runToks_y4 (ts : List Tok) (pd : PDate) (cs : List Char) :
    runToks (.y4 :: ts) pd cs =
      (alts_Y cs).flatMap (fun p => runToks ts { pd with y := p.1 } p.2) := rfl

theorem runToks_mo2 (ts : List Tok) (pd : PDate) (cs : List Char) :
    runToks (.mo2 :: ts) pd cs =
      (alts_m cs).flatMap (fun p => runToks ts { pd with m := p.1 } p.2) := rfl

theorem runToks_dy2 (ts : List Tok) (pd : PDate) (cs : List Char) :
    runToks (.dy2 :: ts) pd cs =
      (alts_d cs).flatMap (fun p => runToks ts { pd with d := p.1 } p.2) := rfl

theorem runToks_mB (ts : List Tok) (pd : PDate) (cs : List Char) :
    runToks (.mB :: ts) pd cs =
      (alts_B cs).flatMap (fun p => runToks ts { pd with m := p.1 } p.2) := rfl

theorem runToks_lit_cons (ch : Char) (ts : List Tok) (pd : PDate) (c : Char)
    (r : List Char) : runToks (.lit ch :: ts) pd (c :: r) =
      if cn c = cn ch then runToks ts pd r else [] := rfl

theorem runToks_ws_cons (ts : List Tok) (pd : PDate) (c : Char) (r : List Char) :
    runToks (.ws :: ts) pd (c :: r) =
      if isWS c then runToks ts pd (skipWS r) else [] := rfl

/-! The token alternatives on canonically rendered fields. -/

theorem alts_Y_canon (y : Nat) (h : y ≤ 9999) (rest : List Char) :
    alts_Y (digits4 y ++ rest) = [(y, rest)] := by
  have ha : y / 1000 < 10 := by omega
  have hb : y / 100 % 10 < 10 := by omega
  have hc : y / 10 % 10 < 10 := by omega
  have hd : y % 10 < 10 := by omega
  simp only [digits4, List.cons_append, List.nil_append, alts_Y]
  rw [if_pos ⟨isDig_dc ha, isDig_dc hb, isDig_dc hc, isDig_dc hd⟩]
  rw [dval_dc ha, dval_dc hb, dval_dc hc, dval_dc hd]
  have hval : ((y / 1000 * 10 + y / 100 % 10) * 10 + y / 10 % 10) * 10 + y % 10 = y := by
    omega
  rw [hval]

theorem alts_m_canon (m : Nat) (h1 : 1 ≤ m) (h2 : m ≤ 12) (rest : List Char) :
    ∃ l, alts_m (digits2 m ++ rest) = (m, rest) :: l := by
  interval_cases m <;> exact ⟨_, rfl⟩

theorem alts_d_canon (d : Nat) (h1 : 1 ≤ d) (h2 : d ≤ 31) (rest : List Char) :
    ∃ l, alts_d (digits2 d ++ rest) = (d, rest) :: l := by
  interval_cases d <;> exact ⟨_, rfl⟩

theorem alts_B_canon (m : Nat) (h1 : 1 ≤ m) (h2 : m ≤ 12) (rest : List Char) :
    alts_B (monthName m ++ rest) = [(m, rest)] := by
  interval_cases m <;> rfl

/-! The token alternatives on inputs they reject. -/

theorem alts_Y_fail (c1 c2 c3 c4 : Char) (r : List Char)
    (h : ¬(isDig c1 ∧ isDig c2 ∧ isDig c3 ∧ isDig c4)) :
    alts_Y (c1 :: c2 :: c3 :: c4 :: r) = [] := by
  simp only [alts_Y]
  rw [if_neg h]

theorem alts_m_fail (c1 : Char) (r : List Char) (h : cn c1 < 48 ∨ 57 < cn c1) :
    alts_m (c1 :: r) = [] := by
  cases r with
  | nil =>
    simp only [alts_m]
    rw [if_neg (by omega)]
    rfl
  | cons c2 r2 =>
    simp only [alts_m]
    rw [if_neg (by omega), if_neg (by omega), if_neg (by omega)]
    rfl

theorem alts_d_fail (c1 : Char) (r : List Char) (h : cn c1 < 48 ∨ 57 < cn c1) :
    alts_d (c1 :: r) = [] := by
  cases r with
  | nil =>
    simp only [alts_d]
    rw [if_neg (by omega)]
    rfl
  | cons c2 r2 =>
    simp only [alts_d]
    rw [if_neg (by omega), if_neg (by omega), if_neg (by omega), if_neg (by omega)]
    rfl

theorem matchCI_fail_digit (n0 : Char) (ns : List Char) (c : Char) (r : List Char)
    (h : cn c ≤ 57) (hn : 97 ≤ toLowerN n0) : matchCI (n0 :: ns) (c :: r) = none := by
  have ht : toLowerN c = cn c := by
    unfold toLowerN
    rw [if_neg (by omega)]
  simp only [matchCI]
  rw [if_neg (by rw [ht]; omega)]

theorem alts_B_fail (c : Char) (r : List Char) (h : cn c ≤ 57) : alts_B (c :: r) = [] := by
  unfold alts_B
  refine List.flatMap_eq_nil_iff.mpr ?_
  intro x hx
  have hnone : matchCI x.1 (c :: r) = none := by
    fin_cases hx <;> exact matchCI_fail_digit _ _ c r h (by decide)
  rw [hnone]

/-! Every alternative of a two digit token consumes one or two characters. -/

theorem alts_m_rests (c1 c2 : Char) (r : List Char) :
    ∀ p ∈ alts_m (c1 :: c2 :: r), p.2 = c2 :: r ∨ p.2 = r := by
  intro p hp
  simp only [alts_m, List.mem_append] at hp
  rcases hp with (hp | hp) | hp
  · split at hp
    · rw [List.mem_singleton.mp hp]
      exact Or.inr rfl
    · cases hp
  · split at hp
    · rw [List.mem_singleton.mp hp]
      exact Or.inr rfl
    · cases hp
  · split at hp
    · rw [List.mem_singleton.mp hp]
      exact Or.inl rfl
    · cases hp

theorem alts_d_rests (c1 c2 : Char) (r : List Char) :
    ∀ p ∈ alts_d (c1 :: c2 :: r), p.2 = c2 :: r ∨ p.2 = r := by
  intro p hp
  simp only [alts_d, List.mem_append] at hp
  rcases hp with ((hp | hp) | hp) | hp
  · split at hp
    · rw [List.mem_singleton.mp hp]
      exact Or.inr rfl
    · cases hp
  · split at hp
    · rw [List.mem_singleton.mp hp]
      exact Or.inr rfl
    · cases hp
  · split at hp
    · rw [List.mem_singleton.mp hp]
      exact Or.inr rfl
    · cases hp
  · split at hp
    · rw [List.mem_singleton.mp hp]
      exact Or.inl rfl
    · cases hp

/-! Two digit token followed by a literal or whitespace token that the
next input character cannot satisfy: the whole format fails. -/

theorem run_dy2_lit_fail (ch : Char) (ts : List Tok) (pd : PDate) (c1 c2 c3 : Char)
    (r : List Char) (h2 : cn c2 ≠ cn ch) (h3 : cn c3 ≠ cn ch) :
    runToks (.dy2 :: .lit ch :: ts) pd (c1 :: c2 :: c3 :: r) = [] := by
  rw [runToks_dy2]
  refine List.flatMap_eq_nil_iff.mpr ?_
  intro p hp
  rcases alts_d_rests c1 c2 (c3 :: r) p hp with h | h
  · rw [h, runToks_lit_cons, if_neg h2]
  · rw [h, runToks_lit_cons, if_neg h3]

theorem run_mo2_lit_fail (ch : Char) (ts : List Tok) (pd : PDate) (c1 c2 c3 : Char)
    (r : List Char) (h2 : cn c2 ≠ cn ch) (h3 : cn c3 ≠ cn ch) :
    runToks (.mo2 :: .lit ch :: ts) pd (c1 :: c2 :: c3 :: r) = [] := by
  rw [runToks_mo2]
  refine List.flatMap_eq_nil_iff.mpr ?_
  intro p hp
  rcases alts_m_rests c1 c2 (c3 :: r) p hp with h | h
  · rw [h, runToks_lit_cons, if_neg h2]
  · rw [h, runToks_lit_cons, if_neg h3]

theorem run_dy2_ws_fail (ts : List Tok) (pd : PDate) (c1 c2 c3 : Char)
    (r : List Char) (h2 : isWS c2 = false) (h3 : isWS c3 = false) :
    runToks (.dy2 :: .ws :: ts) pd (c1 :: c2 :: c3 :: r) = [] := by
  rw [runToks_dy2]
  refine List.flatMap_eq_nil_iff.mpr ?_
  intro p hp
  rcases alts_d_rests c1 c2 (c3 :: r) p hp with h | h
  · rw [h, runToks_ws_cons, h2]
    rfl
  · rw [h, runToks_ws_cons, h3]
    rfl

/-! The committed match of each format on the rendering it is meant to
parse: the head of the depth first search result is the full parse. -/

theorem run_fmt1 (y m d : Nat) (hy : y ≤ 9999) (hm1 : 1 ≤ m) (hm2 : m ≤ 12)
    (hd1 : 1 ≤ d) (hd2 : d ≤ 31) :
    ∃ l, runToks [.y4, .mo2, .dy2] ⟨1900, 1, 1⟩
      (digits4 y ++ (digits2 m ++ digits2 d)) =
        ((⟨y, m, d⟩ : PDate), ([] : List Char)) :: l := by
  obtain ⟨l2, h2⟩ := alts_m_canon m hm1 hm2 (digits2 d)
  obtain ⟨l3, h3⟩ := alts_d_canon d hd1 hd2 []
  rw [List.append_nil] at h3
  rw [runToks_y4, alts_Y_canon y hy, List.flatMap_cons]
  dsimp only
  rw [runToks_mo2, h2, List.flatMap_cons]
  dsimp only
  rw [runToks_dy2, h3, List.flatMap_cons]
  dsimp only
  rw [runToks_nil]
  exact ⟨_, rfl⟩

theorem skipWS_digits2 (n : Nat) (h : n < 100) (X : List Char) :
    skipWS (digits2 n ++ X) = digits2 n ++ X := by
  simp only [digits2, List.cons_append]
  exact skipWS_nonws _ _ (isWS_dc (by omega))

theorem skipWS_digits4 (n : Nat) (h : n ≤ 9999) (X : List Char) :
    skipWS (digits4 n ++ X) = digits4 n ++ X := by
  simp only [digits4, List.cons_append]
  exact skipWS_nonws _ _ (isWS_dc (by omega))

theorem skipWS_month (m : Nat) (h1 : 1 ≤ m) (h2 : m ≤ 12) (X : List Char) :
    skipWS (monthName m ++ X) = monthName m ++ X := by
  interval_cases m <;> rfl

theorem run_fmt2 (y m d : Nat) (hy : y ≤ 9999) (hm1 : 1 ≤ m) (hm2 : m ≤ 12)
    (hd1 : 1 ≤ d) (hd2 : d ≤ 31) :
    ∃ l, runToks [.dy2, .lit '-', .mo2, .lit '-', .y4] ⟨1900, 1, 1⟩
      (digits2 d ++ ('-' :: (digits2 m ++ ('-' :: digits4 y)))) =
        ((⟨y, m, d⟩ : PDate), ([] : List Char)) :: l := by
  obtain ⟨l1, h1⟩ := alts_d_canon d hd1 hd2 ('-' :: (digits2 m ++ ('-' :: digits4 y)))
  obtain ⟨l2, h2⟩ := alts_m_canon m hm1 hm2 ('-' :: digits4 y)
  have hY := alts_Y_canon y hy []
  rw [List.append_nil] at hY
  rw [runToks_dy2, h1, List.flatMap_cons]
  dsimp only
  rw [runToks_lit_cons, if_pos rfl]
  rw [runToks_mo2, h2, List.flatMap_cons]
  dsimp only
  rw [runToks_lit_cons, if_pos rfl]
  rw [runToks_y4, hY, List.flatMap_cons]
  dsimp only
  rw [runToks_nil]
  exact ⟨_, rfl⟩

theorem run_fmt3 (y m d : Nat) (hy : y ≤ 9999) (hm1 : 1 ≤ m) (hm2 : m ≤ 12)
    (hd1 : 1 ≤ d) (hd2 : d ≤ 31) :
    ∃ l, runToks [.dy2, .lit '.', .mo2, .lit '.', .y4] ⟨1900, 1, 1⟩
      (digits2 d ++ ('.' :: (digits2 m ++ ('.' :: digits4 y)))) =
        ((⟨y, m, d⟩ : PDate), ([] : List Char)) :: l := by
  obtain ⟨l1, h1⟩ := alts_d_canon d hd1 hd2 ('.' :: (digits2 m ++ ('.' :: digits4 y)))
  obtain ⟨l2, h2⟩ := alts_m_canon m hm1 hm2 ('.' :: digits4 y)
  have hY := alts_Y_canon y hy []
  rw [List.append_nil] at hY
  rw [runToks_dy2, h1, List.flatMap_cons]
  dsimp only
  rw [runToks_lit_cons, if_pos rfl]
  rw [runToks_mo2, h2, List.flatMap_cons]
  dsimp only
  rw [runToks_lit_cons, if_pos rfl]
  rw [runToks_y4, hY, List.flatMap_cons]
  dsimp only
  rw [runToks_nil]
  exact ⟨_, rfl⟩

theorem run_fmt4 (y m d : Nat) (hy : y ≤ 9999) (hm1 : 1 ≤ m) (hm2 : m ≤ 12)
    (hd1 : 1 ≤ d) (hd2 : d ≤ 31) :
    ∃ l, runToks [.mo2, .lit '/', .dy2, .lit '/', .y4] ⟨1900, 1, 1⟩
      (digits2 m ++ ('/' :: (digits2 d ++ ('/' :: digits4 y)))) =
        ((⟨y, m, d⟩ : PDate), ([] : List Char)) :: l := by
  obtain ⟨l1, h1⟩ := alts_m_canon m hm1 hm2 ('/' :: (digits2 d ++ ('/' :: digits4 y)))
  obtain ⟨l2, h2⟩ := alts_d_canon d hd1 hd2 ('/' :: digits4 y)
  have hY := alts_Y_canon y hy []
  rw [List.append_nil] at hY
  rw [runToks_mo2, h1, List.flatMap_cons]
  dsimp only
  rw [runToks_lit_cons, if_pos rfl]
  rw [runToks_dy2, h2, List.flatMap_cons]
  dsimp only
  rw [runToks_lit_cons, if_pos rfl]
  rw [runToks_y4, hY, List.flatMap_cons]
  dsimp only
  rw [runToks_nil]
  exact ⟨_, rfl⟩

theorem run_fmt5 (y m d : Nat) (hy : y ≤ 9999) (hm1 : 1 ≤ m) (hm2 : m ≤ 12)
    (hd1 : 1 ≤ d) (hd2 : d ≤ 31) :
    ∃ l, runToks [.y4, .lit '/', .mo2, .lit '/', .dy2] ⟨1900, 1, 1⟩
      (digits4 y ++ ('/' :: (digits2 m ++ ('/' :: digits2 d)))) =
        ((⟨y, m, d⟩ : PDate), ([] : List Char)) :: l := by
  obtain ⟨l2, h2⟩ := alts_m_canon m hm1 hm2 ('/' :: digits2 d)
  obtain ⟨l3, h3⟩ := alts_d_canon d hd1 hd2 []
  rw [List.append_nil] at h3
  rw [runToks_y4, alts_Y_canon y hy, List.flatMap_cons]
  dsimp only
  rw [runToks_lit_cons, if_pos rfl]
  rw [runToks_mo2, h2, List.flatMap_cons]
  dsimp only
  rw [runToks_lit_cons, if_pos rfl]
  rw [runToks_dy2, h3, List.flatMap_cons]
  dsimp only
  rw [runToks_nil]
  exact ⟨_, rfl⟩

theorem run_fmt6 (y m d : Nat) (hy : y ≤ 9999) (hm1 : 1 ≤ m) (hm2 : m ≤ 12)
    (hd1 : 1 ≤ d) (hd2 : d ≤ 31) :
    ∃ l, runToks [.mB, .ws, .dy2, .lit ',', .ws, .y4] ⟨1900, 1, 1⟩
      (monthName m ++ (' ' :: (digits2 d ++ (',' :: (' ' :: digits4 y))))) =
        ((⟨y, m, d⟩ : PDate), ([] : List Char)) :: l := by
  obtain ⟨l2, h2⟩ := alts_d_canon d hd1 hd2 (',' :: (' ' :: digits4 y))
  have hY := alts_Y_canon y hy []
  rw [List.append_nil] at hY
  rw [runToks_mB, alts_B_canon m hm1 hm2, List.flatMap_cons]
  dsimp only
  rw [runToks_ws_cons, if_pos (show isWS ' ' = true from rfl)]
  rw [skipWS_digits2 d (by omega)]
  rw [runToks_dy2, h2, List.flatMap_cons]
  dsimp only
  rw [runToks_lit_cons, if_pos rfl]
  rw [runToks_ws_cons, if_pos (show isWS ' ' = true from rfl)]
  have hskip : skipWS (digits4 y) = digits4 y := by
    have hs := skipWS_digits4 y hy []
    rwa [List.append_nil] at hs
  rw [hskip]
  rw [runToks_y4, hY, List.flatMap_cons]
  dsimp only
  rw [runToks_nil]
  exact ⟨_, rfl⟩

theorem run_fmt7 (y m d : Nat) (hy : y ≤ 9999) (hm1 : 1 ≤ m) (hm2 : m ≤ 12)
    (hd1 : 1 ≤ d) (hd2 : d ≤ 31) :
    ∃ l, runToks [.dy2, .ws, .mB, .ws, .y4] ⟨1900, 1, 1⟩
      (digits2 d ++ (' ' :: (monthName m ++ (' ' :: digits4 y)))) =
        ((⟨y, m, d⟩ : PDate), ([] : List Char)) :: l := by
  obtain ⟨l1, h1⟩ := alts_d_canon d hd1 hd2 (' ' :: (monthName m ++ (' ' :: digits4 y)))
  have hY := alts_Y_canon y hy []
  rw [List.append_nil] at hY
  rw [runToks_dy2, h1, List.flatMap_cons]
  dsimp only
  rw [runToks_ws_cons, if_pos (show isWS ' ' = true from rfl)]
  rw [skipWS_month m hm1 hm2]
  rw [runToks_mB, alts_B_canon m hm1 hm2, List.flatMap_cons]
  dsimp only
  rw [runToks_ws_cons, if_pos (show isWS ' ' = true from rfl)]
  have hskip : skipWS (digits4 y) = digits4 y := by
    have hs := skipWS_digits4 y hy []
    rwa [List.append_nil] at hs
  rw [hskip]
  rw [runToks_y4, hY, List.flatMap_cons]
  dsimp only
  rw [runToks_nil]
  exact ⟨_, rfl⟩

theorem run_fmt8 (y m d : Nat) (hy : y ≤ 9999) (hm1 : 1 ≤ m) (hm2 : m ≤ 12)
    (hd1 : 1 ≤ d) (hd2 : d ≤ 31) :
    ∃ l, runToks [.y4, .lit '-', .mo2, .lit '-', .dy2] ⟨1900, 1, 1⟩
      (digits4 y ++ ('-' :: (digits2 m ++ ('-' :: digits2 d)))) =
        ((⟨y, m, d⟩ : PDate), ([] : List Char)) :: l := by
  obtain ⟨l2, h2⟩ := alts_m_canon m hm1 hm2 ('-' :: digits2 d)
  obtain ⟨l3, h3⟩ := alts_d_canon d hd1 hd2 []
  rw [List.append_nil] at h3
  rw [runToks_y4, alts_Y_canon y hy, List.flatMap_cons]
  dsimp only
  rw [runToks_lit_cons, if_pos rfl]
  rw [runToks_mo2, h2, List.flatMap_cons]
  dsimp only
  rw [runToks_lit_cons, if_pos rfl]
  rw [runToks_dy2, h3, List.flatMap_cons]
  dsimp only
  rw [runToks_nil]
  exact ⟨_, rfl⟩

theorem cnDash : cn '-' = 45 := rfl

theorem cnDot : cn '.' = 46 := rfl

theorem cnSlash : cn '/' = 47 := rfl

theorem cnSpace : cn ' ' = 32 := rfl

theorem daysInMonth_le (y m : Nat) : daysInMonth y m ≤ 31 := by
  unfold daysInMonth
  split_ifs <;> omega

theorem alts_Y_fail3 (c1 c2 c3 : Char) (h3 : ¬isDig c3) (r : List Char) :
    alts_Y (c1 :: c2 :: c3 :: r) = [] := by
  cases r with
  | nil => rfl
  | cons c4 r2 => exact alts_Y_fail c1 c2 c3 c4 r2 (fun hc => h3 hc.2.2.1)

theorem strptimeFmt_mk_of_run (toks : List Tok) (l0 : List Char) (pd : PDate)
    (hv : validDate pd)
    (h : ∃ l, runToks toks ⟨1900, 1, 1⟩ l0 = (pd, ([] : List Char)) :: l) :
    strptimeFmt toks (⟨l0⟩ : String) = some pd := by
  obtain ⟨l, hl⟩ := h
  unfold strptimeFmt
  rw [show (⟨l0⟩ : String).toList = l0 from rfl, hl]
  simp [hv]

theorem strptimeFmt_none_of_run_nil (toks : List Tok) (l0 : List Char)
    (h : runToks toks ⟨1900, 1, 1⟩ l0 = []) : strptimeFmt toks (⟨l0⟩ : String) = none := by
  unfold strptimeFmt
  rw [show (⟨l0⟩ : String).toList = l0 from rfl, h]

theorem firstSuccess_cons (f : List Tok) (fs : List (List Tok)) (s : String) :
    firstSuccess (f :: fs) s =
      match strptimeFmt f s with
      | some pd => some pd
      | none => firstSuccess fs s := rfl

/-! to_iso_date on every canonical rendering of a valid date. -/

theorem to_iso_renderCompact (y m d : Nat) (hv : validDate ⟨y, m, d⟩) :
    to_iso_date (renderCompact y m d) = .ok (strftimeISO ⟨y, m, d⟩) := by
  obtain ⟨hy1, hy2, hm1, hm2, hd1, hd2⟩ := id hv
  have hd31 : d ≤ 31 := le_trans hd2 (daysInMonth_le y m)
  have f1 : strptimeFmt [Tok.y4, Tok.mo2, Tok.dy2] (renderCompact y m d) =
      some ⟨y, m, d⟩ :=
    strptimeFmt_mk_of_run _ _ _ hv (run_fmt1 y m d hy2 hm1 hm2 hd1 hd31)
  unfold to_iso_date dateFormats
  rw [firstSuccess_cons, f1]

theorem to_iso_renderDMYdash (y m d : Nat) (hv : validDate ⟨y, m, d⟩) :
    to_iso_date (renderDMYdash y m d) = .ok (strftimeISO ⟨y, m, d⟩) := by
  obtain ⟨hy1, hy2, hm1, hm2, hd1, hd2⟩ := id hv
  have hd31 : d ≤ 31 := le_trans hd2 (daysInMonth_le y m)
  have f1 : strptimeFmt [Tok.y4, Tok.mo2, Tok.dy2] (renderDMYdash y m d) = none := by
    apply strptimeFmt_none_of_run_nil
    rw [runToks_y4]
    rw [show (digits2 d ++ ('-' :: (digits2 m ++ ('-' :: digits4 y))) : List Char) =
      dc (d / 10) :: dc (d % 10) :: '-' :: (digits2 m ++ ('-' :: digits4 y)) from rfl]
    rw [alts_Y_fail3 _ _ _ (by decide), List.flatMap_nil]
  have f2 : strptimeFmt [Tok.dy2, Tok.lit '-', Tok.mo2, Tok.lit '-', Tok.y4]
      (renderDMYdash y m d) = some ⟨y, m, d⟩ :=
    strptimeFmt_mk_of_run _ _ _ hv (run_fmt2 y m d hy2 hm1 hm2 hd1 hd31)
  unfold to_iso_date dateFormats
  rw [firstSuccess_cons, f1]
  dsimp only
  rw [firstSuccess_cons, f2]

theorem to_iso_renderDMYdot (y m d : Nat) (hv : validDate ⟨y, m, d⟩) :
    to_iso_date (renderDMYdot y m d) = .ok (strftimeISO ⟨y, m, d⟩) := by
  obtain ⟨hy1, hy2, hm1, hm2, hd1, hd2⟩ := id hv
  have hd31 : d ≤ 31 := le_trans hd2 (daysInMonth_le y m)
  have hc2 : cn (dc (d % 10)) = 48 + d % 10 := cn_dc (by omega)
  have f1 : strptimeFmt [Tok.y4, Tok.mo2, Tok.dy2] (renderDMYdot y m d) = none := by
    apply strptimeFmt_none_of_run_nil
    rw [runToks_y4]
    rw [show (digits2 d ++ ('.' :: (digits2 m ++ ('.' :: digits4 y))) : List Char) =
      dc (d / 10) :: dc (d % 10) :: '.' :: (digits2 m ++ ('.' :: digits4 y)) from rfl]
    rw [alts_Y_fail3 _ _ _ (by decide), List.flatMap_nil]
  have f2 : strptimeFmt [Tok.dy2, Tok.lit '-', Tok.mo2, Tok.lit '-', Tok.y4]
      (renderDMYdot y m d) = none := by
    apply strptimeFmt_none_of_run_nil
    rw [show (digits2 d ++ ('.' :: (digits2 m ++ ('.' :: digits4 y))) : List Char) =
      dc (d / 10) :: dc (d % 10) :: '.' :: (digits2 m ++ ('.' :: digits4 y)) from rfl]
    exact run_dy2_lit_fail '-' _ _ _ _ _ _ (by rw [hc2, cnDash]; omega) (by decide)
  have f3 : strptimeFmt [Tok.dy2, Tok.lit '.', Tok.mo2, Tok.lit '.', Tok.y4]
      (renderDMYdot y m d) = some ⟨y, m, d⟩ :=
    strptimeFmt_mk_of_run _ _ _ hv (run_fmt3 y m d hy2 hm1 hm2 hd1 hd31)
  unfold to_iso_date dateFormats
  rw [firstSuccess_cons, f1]
  dsimp only
  rw [firstSuccess_cons, f2]
  dsimp only
  rw [firstSuccess_cons, f3]

theorem to_iso_renderMDYslash (y m d : Nat) (hv : validDate ⟨y, m, d⟩) :
    to_iso_date (renderMDYslash y m d) = .ok (strftimeISO ⟨y, m, d⟩) := by
  obtain ⟨hy1, hy2, hm1, hm2, hd1, hd2⟩ := id hv
  have hd31 : d ≤ 31 := le_trans hd2 (daysInMonth_le y m)
  have hc2 : cn (dc (m % 10)) = 48 + m % 10 := cn_dc (by omega)
  have f1 : strptimeFmt [Tok.y4, Tok.mo2, Tok.dy2] (renderMDYslash y m d) = none := by
    apply strptimeFmt_none_of_run_nil
    rw [runToks_y4]
    rw [show (digits2 m ++ ('/' :: (digits2 d ++ ('/' :: digits4 y))) : List Char) =
      dc (m / 10) :: dc (m % 10) :: '/' :: (digits2 d ++ ('/' :: digits4 y)) from rfl]
    rw [alts_Y_fail3 _ _ _ (by decide), List.flatMap_nil]
  have f2 : strptimeFmt [Tok.dy2, Tok.lit '-', Tok.mo2, Tok.lit '-', Tok.y4]
      (renderMDYslash y m d) = none := by
    apply strptimeFmt_none_of_run_nil
    rw [show (digits2 m ++ ('/' :: (digits2 d ++ ('/' :: digits4 y))) : List Char) =
      dc (m / 10) :: dc (m % 10) :: '/' :: (digits2 d ++ ('/' :: digits4 y)) from rfl]
    exact run_dy2_lit_fail '-' _ _ _ _ _ _ (by rw [hc2, cnDash]; omega) (by decide)
  have f3 : strptimeFmt [Tok.dy2, Tok.lit '.', Tok.mo2, Tok.lit '.', Tok.y4]
      (renderMDYslash y m d) = none := by
    apply strptimeFmt_none_of_run_nil
    rw [show (digits2 m ++ ('/' :: (digits2 d ++ ('/' :: digits4 y))) : List Char) =
      dc (m / 10) :: dc (m % 10) :: '/' :: (digits2 d ++ ('/' :: digits4 y)) from rfl]
    exact run_dy2_lit_fail '.' _ _ _ _ _ _ (by rw [hc2, cnDot]; omega) (by decide)
  have f4 : strptimeFmt [Tok.mo2, Tok.lit '/', Tok.dy2, Tok.lit '/', Tok.y4]
      (renderMDYslash y m d) = some ⟨y, m, d⟩ :=
    strptimeFmt_mk_of_run _ _ _ hv (run_fmt4 y m d hy2 hm1 hm2 hd1 hd31)
  unfold to_iso_date dateFormats
  rw [firstSuccess_cons, f1]
  dsimp only
  rw [firstSuccess_cons, f2]
  dsimp only
  rw [firstSuccess_cons, f3]
  dsimp only
  rw [firstSuccess_cons, f4]

theorem to_iso_renderYMDslash (y m d : Nat) (hv : validDate ⟨y, m, d⟩) :
    to_iso_date (renderYMDslash y m d) = .ok (strftimeISO ⟨y, m, d⟩) := by
  obtain ⟨hy1, hy2, hm1, hm2, hd1, hd2⟩ := id hv
  have hd31 : d ≤ 31 := le_trans hd2 (daysInMonth_le y m)
  have hcY2 : cn (dc (y / 100 % 10)) = 48 + y / 100 % 10 := cn_dc (by omega)
  have hcY3 : cn (dc (y / 10 % 10)) = 48 + y / 10 % 10 := cn_dc (by omega)
  have hcons : (digits4 y ++ ('/' :: (digits2 m ++ ('/' :: digits2 d))) : List Char) =
      dc (y / 1000) :: dc (y / 100 % 10) :: dc (y / 10 % 10) ::
        (dc (y % 10) :: ('/' :: (digits2 m ++ ('/' :: digits2 d)))) := rfl
  have f1 : strptimeFmt [Tok.y4, Tok.mo2, Tok.dy2] (renderYMDslash y m d) = none := by
    apply strptimeFmt_none_of_run_nil
    rw [runToks_y4, alts_Y_canon y hy2, List.flatMap_cons]
    dsimp only
    rw [runToks_mo2, alts_m_fail '/' _ (Or.inl (by rw [cnSlash]; omega)),
      List.flatMap_nil]
    rfl
  have f2 : strptimeFmt [Tok.dy2, Tok.lit '-', Tok.mo2, Tok.lit '-', Tok.y4]
      (renderYMDslash y m d) = none := by
    apply strptimeFmt_none_of_run_nil
    rw [hcons]
    exact run_dy2_lit_fail '-' _ _ _ _ _ _ (by rw [hcY2, cnDash]; omega)
      (by rw [hcY3, cnDash]; omega)
  have f3 : strptimeFmt [Tok.dy2, Tok.lit '.', Tok.mo2, Tok.lit '.', Tok.y4]
      (renderYMDslash y m d) = none := by
    apply strptimeFmt_none_of_run_nil
    rw [hcons]
    exact run_dy2_lit_fail '.' _ _ _ _ _ _ (by rw [hcY2, cnDot]; omega)
      (by rw [hcY3, cnDot]; omega)
  have f4 : strptimeFmt [Tok.mo2, Tok.lit '/', Tok.dy2, Tok.lit '/', Tok.y4]
      (renderYMDslash y m d) = none := by
    apply strptimeFmt_none_of_run_nil
    rw [hcons]
    exact run_mo2_lit_fail '/' _ _ _ _ _ _ (by rw [hcY2, cnSlash]; omega)
      (by rw [hcY3, cnSlash]; omega)
  have f5 : strptimeFmt [Tok.y4, Tok.lit '/', Tok.mo2, Tok.lit '/', Tok.dy2]
      (renderYMDslash y m d) = some ⟨y, m, d⟩ :=
    strptimeFmt_mk_of_run _ _ _ hv (run_fmt5 y m d hy2 hm1 hm2 hd1 hd31)
  unfold to_iso_date dateFormats
  rw [firstSuccess_cons, f1]
  dsimp only
  rw [firstSuccess_cons, f2]
  dsimp only
  rw [firstSuccess_cons, f3]
  dsimp only
  rw [firstSuccess_cons, f4]
  dsimp only
  rw [firstSuccess_cons, f5]

theorem to_iso_renderBdY (y m d : Nat) (hv : validDate ⟨y, m, d⟩) :
    to_iso_date (renderBdY y m d) = .ok (strftimeISO ⟨y, m, d⟩) := by
  obtain ⟨hy1, hy2, hm1, hm2, hd1, hd2⟩ := id hv
  have hd31 : d ≤ 31 := le_trans hd2 (daysInMonth_le y m)
  have hfails : strptimeFmt [Tok.y4, Tok.mo2, Tok.dy2] (renderBdY y m d) = none ∧
      strptimeFmt [Tok.dy2, Tok.lit '-', Tok.mo2, Tok.lit '-', Tok.y4]
        (renderBdY y m d) = none ∧
      strptimeFmt [Tok.dy2, Tok.lit '.', Tok.mo2, Tok.lit '.', Tok.y4]
        (renderBdY y m d) = none ∧
      strptimeFmt [Tok.mo2, Tok.lit '/', Tok.dy2, Tok.lit '/', Tok.y4]
        (renderBdY y m d) = none ∧
      strptimeFmt [Tok.y4, Tok.lit '/', Tok.mo2, Tok.lit '/', Tok.dy2]
        (renderBdY y m d) = none := by
    interval_cases m <;> exact ⟨rfl, rfl, rfl, rfl, rfl⟩
  obtain ⟨f1, f2, f3, f4, f5⟩ := hfails
  have f6 : strptimeFmt [Tok.mB, Tok.ws, Tok.dy2, Tok.lit ',', Tok.ws, Tok.y4]
      (renderBdY y m d) = some ⟨y, m, d⟩ :=
    strptimeFmt_mk_of_run _ _ _ hv (run_fmt6 y m d hy2 hm1 hm2 hd1 hd31)
  unfold to_iso_date dateFormats
  rw [firstSuccess_cons, f1]
  dsimp only
  rw [firstSuccess_cons, f2]
  dsimp only
  rw [firstSuccess_cons, f3]
  dsimp only
  rw [firstSuccess_cons, f4]
  dsimp only
  rw [firstSuccess_cons, f5]
  dsimp only
  rw [firstSuccess_cons, f6]

theorem to_iso_renderdBY (y m d : Nat) (hv : validDate ⟨y, m, d⟩) :
    to_iso_date (renderdBY y m d) = .ok (strftimeISO ⟨y, m, d⟩) := by
  obtain ⟨hy1, hy2, hm1, hm2, hd1, hd2⟩ := id hv
  have hd31 : d ≤ 31 := le_trans hd2 (daysInMonth_le y m)
  have hc1 : cn (dc (d / 10)) = 48 + d / 10 := cn_dc (by omega)
  have hc2 : cn (dc (d % 10)) = 48 + d % 10 := cn_dc (by omega)
  have hcons : (digits2 d ++ (' ' :: (monthName m ++ (' ' :: digits4 y))) : List Char) =
      dc (d / 10) :: dc (d % 10) :: ' ' :: (monthName m ++ (' ' :: digits4 y)) := rfl
  have f1 : strptimeFmt [Tok.y4, Tok.mo2, Tok.dy2] (renderdBY y m d) = none := by
    apply strptimeFmt_none_of_run_nil
    rw [runToks_y4, hcons, alts_Y_fail3 _ _ _ (by decide), List.flatMap_nil]
  have f2 : strptimeFmt [Tok.dy2, Tok.lit '-', Tok.mo2, Tok.lit '-', Tok.y4]
      (renderdBY y m d) = none := by
    apply strptimeFmt_none_of_run_nil
    rw [hcons]
    exact run_dy2_lit_fail '-' _ _ _ _ _ _ (by rw [hc2, cnDash]; omega) (by decide)
  have f3 : strptimeFmt [Tok.dy2, Tok.lit '.', Tok.mo2, Tok.lit '.', Tok.y4]
      (renderdBY y m d) = none := by
    apply strptimeFmt_none_of_run_nil
    rw [hcons]
    exact run_dy2_lit_fail '.' _ _ _ _ _ _ (by rw [hc2, cnDot]; omega) (by decide)
  have f4 : strptimeFmt [Tok.mo2, Tok.lit '/', Tok.dy2, Tok.lit '/', Tok.y4]
      (renderdBY y m d) = none := by
    apply strptimeFmt_none_of_run_nil
    rw [hcons]
    exact run_mo2_lit_fail '/' _ _ _ _ _ _ (by rw [hc2, cnSlash]; omega) (by decide)
  have f5 : strptimeFmt [Tok.y4, Tok.lit '/', Tok.mo2, Tok.lit '/', Tok.dy2]
      (renderdBY y m d) = none := by
    apply strptimeFmt_none_of_run_nil
    rw [runToks_y4, hcons, alts_Y_fail3 _ _ _ (by decide), List.flatMap_nil]
  have f6 : strptimeFmt [Tok.mB, Tok.ws, Tok.dy2, Tok.lit ',', Tok.ws, Tok.y4]
      (renderdBY y m d) = none := by
    apply strptimeFmt_none_of_run_nil
    rw [runToks_mB, hcons, alts_B_fail _ _ (by rw [hc1]; omega), List.flatMap_nil]
  have f7 : strptimeFmt [Tok.dy2, Tok.ws, Tok.mB, Tok.ws, Tok.y4]
      (renderdBY y m d) = some ⟨y, m, d⟩ :=
    strptimeFmt_mk_of_run _ _ _ hv (run_fmt7 y m d hy2 hm1 hm2 hd1 hd31)
  unfold to_iso_date dateFormats
  rw [firstSuccess_cons, f1]
  dsimp only
  rw [firstSuccess_cons, f2]
  dsimp only
  rw [firstSuccess_cons, f3]
  dsimp only
  rw [firstSuccess_cons, f4]
  dsimp only
  rw [firstSuccess_cons, f5]
  dsimp only
  rw [firstSuccess_cons, f6]
  dsimp only
  rw [firstSuccess_cons, f7]

theorem to_iso_renderISO (y m d : Nat) (hv : validDate ⟨y, m, d⟩) :
    to_iso_date (renderISO y m d) = .ok (strftimeISO ⟨y, m, d⟩) := by
  obtain ⟨hy1, hy2, hm1, hm2, hd1, hd2⟩ := id hv
  have hd31 : d ≤ 31 := le_trans hd2 (daysInMonth_le y m)
  have hy9 : y ≤ 9999 := hy2
  have hcY1 : cn (dc (y / 1000)) = 48 + y / 1000 := cn_dc (by omega)
  have hcY2 : cn (dc (y / 100 % 10)) = 48 + y / 100 % 10 := cn_dc (by omega)
  have hcY3 : cn (dc (y / 10 % 10)) = 48 + y / 10 % 10 := cn_dc (by omega)
  have hcons : (digits4 y ++ ('-' :: (digits2 m ++ ('-' :: digits2 d))) : List Char) =
      dc (y / 1000) :: dc (y / 100 % 10) :: dc (y / 10 % 10) ::
        (dc (y % 10) :: ('-' :: (digits2 m ++ ('-' :: digits2 d)))) := rfl
  have f1 : strptimeFmt [Tok.y4, Tok.mo2, Tok.dy2] (renderISO y m d) = none := by
    apply strptimeFmt_none_of_run_nil
    rw [runToks_y4, alts_Y_canon y hy2, List.flatMap_cons]
    dsimp only
    rw [runToks_mo2, alts_m_fail '-' _ (Or.inl (by rw [cnDash]; omega)),
      List.flatMap_nil]
    rfl
  have f2 : strptimeFmt [Tok.dy2, Tok.lit '-', Tok.mo2, Tok.lit '-', Tok.y4]
      (renderISO y m d) = none := by
    apply strptimeFmt_none_of_run_nil
    rw [hcons]
    exact run_dy2_lit_fail '-' _ _ _ _ _ _ (by rw [hcY2, cnDash]; omega)
      (by rw [hcY3, cnDash]; omega)
  have f3 : strptimeFmt [Tok.dy2, Tok.lit '.', Tok.mo2, Tok.lit '.', Tok.y4]
      (renderISO y m d) = none := by
    apply strptimeFmt_none_of_run_nil
    rw [hcons]
    exact run_dy2_lit_fail '.' _ _ _ _ _ _ (by rw [hcY2, cnDot]; omega)
      (by rw [hcY3, cnDot]; omega)
  have f4 : strptimeFmt [Tok.mo2, Tok.lit '/', Tok.dy2, Tok.lit '/', Tok.y4]
      (renderISO y m d) = none := by
    apply strptimeFmt_none_of_run_nil
    rw [hcons]
    exact run_mo2_lit_fail '/' _ _ _ _ _ _ (by rw [hcY2, cnSlash]; omega)
      (by rw [hcY3, cnSlash]; omega)
  have f5 : strptimeFmt [Tok.y4, Tok.lit '/', Tok.mo2, Tok.lit '/', Tok.dy2]
      (renderISO y m d) = none := by
    apply strptimeFmt_none_of_run_nil
    rw [runToks_y4, alts_Y_canon y hy2, List.flatMap_cons]
    dsimp only
    rw [runToks_lit_cons, if_neg (show ¬cn '-' = cn '/' from by decide)]
    rfl
  have f6 : strptimeFmt [Tok.mB, Tok.ws, Tok.dy2, Tok.lit ',', Tok.ws, Tok.y4]
      (renderISO y m d) = none := by
    apply strptimeFmt_none_of_run_nil
    rw [runToks_mB, hcons, alts_B_fail _ _ (by rw [hcY1]; omega), List.flatMap_nil]
  have f7 : strptimeFmt [Tok.dy2, Tok.ws, Tok.mB, Tok.ws, Tok.y4]
      (renderISO y m d) = none := by
    apply strptimeFmt_none_of_run_nil
    rw [hcons]
    exact run_dy2_ws_fail _ _ _ _ _ _ (isWS_dc (by omega)) (isWS_dc (by omega))
  have f8 : strptimeFmt [Tok.y4, Tok.lit '-', Tok.mo2, Tok.lit '-', Tok.dy2]
      (renderISO y m d) = some ⟨y, m, d⟩ :=
    strptimeFmt_mk_of_run _ _ _ hv (run_fmt8 y m d hy2 hm1 hm2 hd1 hd31)
  unfold to_iso_date dateFormats
  rw [firstSuccess_cons, f1]
  dsimp only
  rw [firstSuccess_cons, f2]
  dsimp only
  rw [firstSuccess_cons, f3]
  dsimp only
  rw [firstSuccess_cons, f4]
  dsimp only
  rw [firstSuccess_cons, f5]
  dsimp only
  rw [firstSuccess_cons, f6]
  dsimp only
  rw [firstSuccess_cons, f7]
  dsimp only
  rw [firstSuccess_cons, f8]

theorem firstSuccess_none (fs : List (List Tok)) (s : String)
    (h : ∀ f ∈ fs, strptimeFmt f s = none) : firstSuccess fs s = none := by
  induction fs with
  | nil => rfl
  | cons f fs ih =>
    rw [firstSuccess_cons, h f (List.mem_cons_self f fs)]
    exact ih (fun g hg => h g (List.mem_cons_of_mem f hg))

/-- Claim C3: for every calendar date accepted by datetime, each of the
eight documented renderings of that date is parsed by to_iso_date and
mapped to the ISO form of the same date; and every string matched by none
of the eight compiled formats raises ValueError with the source text
rather than returning a value. -/
theorem C3_date_normalization (y m d : Nat) (hv : validDate ⟨y, m, d⟩) :
    (∀ s ∈ renderings y m d, to_iso_date s = .ok (strftimeISO ⟨y, m, d⟩)) ∧
    (∀ s : String, (∀ f ∈ dateFormats, strptimeFmt f s = none) →
      to_iso_date s = .error ("Could not parse date: " ++ s)) := by
  constructor
  · intro s hs
    simp only [renderings, List.mem_cons, List.not_mem_nil, or_false] at hs
    rcases hs with h | h | h | h | h | h | h | h <;> subst h
    · exact to_iso_renderCompact y m d hv
    · exact to_iso_renderDMYdash y m d hv
    · exact to_iso_renderDMYdot y m d hv
    · exact to_iso_renderMDYslash y m d hv
    · exact to_iso_renderYMDslash y m d hv
    · exact to_iso_renderBdY y m d hv
    · exact to_iso_renderdBY y m d hv
    · exact to_iso_renderISO y m d hv
  · intro s h
    unfold to_iso_date
    rw [firstSuccess_none dateFormats s h]

theorem C3_date_normalization_witness :
    to_iso_date "20240214" = Except.ok "2024-02-14" ∧
    to_iso_date "not-a-date" = Except.error "Could not parse date: not-a-date" := by
  constructor
  · have h := (C3_date_normalization 2024 2 14 (by decide)).1 (renderCompact 2024 2 14)
      (List.mem_cons_self _ _)
    have e1 : renderCompact 2024 2 14 = "20240214" := by decide
    have e2 : strftimeISO ⟨2024, 2, 14⟩ = "2024-02-14" := by decide
    rw [e1, e2] at h
    exact h
  · exact (C3_date_normalization 2024 2 14 (by decide)).2 "not-a-date" (by decide)

theorem strptimeFmt_valid (toks : List Tok) (s : String) (pd : PDate)
    (h : strptimeFmt toks s = some pd) : validDate pd := by
  unfold strptimeFmt at h
  cases hr : runToks toks ⟨1900, 1, 1⟩ s.toList with
  | nil => rw [hr] at h; cases h
  | cons p rest =>
    rw [hr] at h
    obtain ⟨pd2, cs2⟩ := p
    dsimp only at h
    by_cases h1 : cs2 = []
    · subst h1
      rw [if_pos rfl] at h
      by_cases h2 : validDate pd2
      · rw [if_pos h2] at h
        injection h with h3
        rw [← h3]
        exact h2
      · rw [if_neg h2] at h
        cases h
    · rw [if_neg h1] at h
      cases h

theorem firstSuccess_valid (fs : List (List Tok)) (s : String) (pd : PDate)
    (h : firstSuccess fs s = some pd) : validDate pd := by
  induction fs with
  | nil => cases h
  | cons f fs ih =>
    rw [firstSuccess_cons] at h
    cases hf : strptimeFmt f s with
    | none =>
      rw [hf] at h
      exact ih h
    | some q =>
      rw [hf] at h
      dsimp only at h
      injection h with h2
      rw [← h2]
      exact strptimeFmt_valid f s q hf

/-- Claim C10: to_iso_date is idempotent on its successful outputs: every
output it produces parses again, through the Y-m-d format at the end of
the list, and is returned unchanged. -/
theorem C10_idempotent (s t : String) (h : to_iso_date s = .ok t) :
    to_iso_date t = .ok t := by
  unfold to_iso_date at h
  cases hfs : firstSuccess dateFormats s with
  | none => rw [hfs] at h; cases h
  | some pd =>
    rw [hfs] at h
    dsimp only at h
    have hval : validDate pd := firstSuccess_valid dateFormats s pd hfs
    injection h with h2
    rw [← h2]
    exact to_iso_renderISO pd.y pd.m pd.d hval

theorem C10_idempotent_witness :
    to_iso_date "14-02-2024" = Except.ok "2024-02-14" ∧
    to_iso_date "2024-02-14" = Except.ok "2024-02-14" :=
  ⟨by decide, C10_idempotent "14-02-2024" "2024-02-14" (by decide)⟩

end Podner
